import Mathlib

/-!
# ADT: request validation rules, user schema and lazy route component

A verification development for the three source files of the repository:

* `src/middleware/validation.js` : the rule list `validateDisasterInput`,
* `src/models/User.js`           : the schema `userSchema`,
* `src/App.js`                   : the lazy route component `DisasterMap`.

The files are a few lines each and consist of calls into three libraries
(express-validator 7 on top of validator.js 13, Mongoose, React).  What the
repository's lines do is therefore decided by what those calls do; the parts
of the libraries that the calls reach are embedded here next to the
repository's own definitions, each under the name it has in its library.
Code that can throw returns `Except`.
-/

set_option autoImplicit false

/-! ## Exceptions -/

namespace Module

/-- An exception thrown by JavaScript code. -/
inductive Thrown where
  | referenceError (identifier : String)
  | typeError (message : String)

end Module

/-! ## JavaScript values -/

/-- A JavaScript number, in the form `Number::toString` reads it: `NaN`, zero,
an infinity, or the finite non-zero number `± digits × 10 ^ (exponent - k)`,
where `k` is the count of decimal digits of `digits` and `digits` is the
shortest digit sequence that identifies the number (`1.5` is `15` with exponent
`1`, `1e21` is `1` with exponent `22`). -/
inductive JsNumber where
  | nan
  | zero
  | infinity (negative : Bool)
  | finite (negative : Bool) (digits : Nat) (exponent : Int)

namespace JsNumber

/-- The exponent of the scientific form: a sign and the decimal digits. -/
def exponentPart (e : Int) : List Char :=
  (if 0 ≤ e then '+' else '-') :: Nat.toDigits 10 e.natAbs

/-- The text of a positive finite number with decimal digits `ds` and exponent
`n`, by the five cases of `Number::toString`: an integer padded with zeros, a
number with a decimal point inside the digits, a fraction below one, and the
two scientific forms. -/
def renderFinite (ds : List Char) (n : Int) : List Char :=
  let k : Int := ds.length
  if k ≤ n ∧ n ≤ 21 then ds ++ List.replicate (n - k).toNat '0'
  else if 0 < n ∧ n ≤ 21 then ds.take n.toNat ++ '.' :: ds.drop n.toNat
  else if -6 < n ∧ n ≤ 0 then '0' :: '.' :: (List.replicate (-n).toNat '0' ++ ds)
  else if ds.length = 1 then ds ++ 'e' :: exponentPart (n - 1)
  else ds.take 1 ++ '.' :: (ds.drop 1 ++ 'e' :: exponentPart (n - 1))

/-- ECMAScript `Number::toString(x)` in radix 10, which `String(x)` returns. -/
def toString : JsNumber → String
  | nan => "NaN"
  | zero => "0"
  | infinity false => "Infinity"
  | infinity true => "-Infinity"
  | finite negative digits exponent =>
    ⟨(if negative then ['-'] else []) ++ renderFinite (Nat.toDigits 10 digits) exponent⟩

end JsNumber

/-- A JavaScript value as it can occur in a parsed request body: a primitive,
an array, or an object given by its own properties. -/
inductive JsValue where
  | undefined
  | null
  | bool (b : Bool)
  | num (x : JsNumber)
  | str (s : String)
  | arr (items : List JsValue)
  | obj (props : List (String × JsValue))

namespace JsValue

/-- ECMAScript `ToBoolean(value)`. -/
def truthy : JsValue → Bool
  | undefined => false
  | null => false
  | bool b => b
  | num JsNumber.nan => false
  | num JsNumber.zero => false
  | num _ => true
  | str s => s.length != 0
  | arr _ => true
  | obj _ => true

/-- The test `Array.isArray(value)`. -/
def isArray : JsValue → Bool
  | arr _ => true
  | _ => false

/-- Whether an object given by its own properties has an own property of the
given name. -/
def hasOwn (props : List (String × JsValue)) (name : String) : Bool :=
  (props.lookup name).isSome

mutual
/-- ECMAScript `Array.prototype.join` with the separator `","`, which is what
`Array.prototype.toString` calls.  It throws when an element does. -/
def join : List JsValue → Except Module.Thrown String
  | [] => Except.ok ""
  | [x] => joinItem x
  | x :: y :: rest =>
    match joinItem x, join (y :: rest) with
    | Except.ok a, Except.ok b => Except.ok (a ++ "," ++ b)
    | Except.error e, _ => Except.error e
    | Except.ok _, Except.error e => Except.error e
/-- The text one element contributes to `join`: nothing for `undefined` and
`null`, `ToString(element)` otherwise.  For an object, `ToString` calls the
inherited `Object.prototype.toString` unless the object has an own `toString`
property; an own one parsed from JSON is not callable, `valueOf` then returns
the object itself, and the conversion throws a `TypeError`. -/
def joinItem : JsValue → Except Module.Thrown String
  | undefined => Except.ok ""
  | null => Except.ok ""
  | bool true => Except.ok "true"
  | bool false => Except.ok "false"
  | num x => Except.ok x.toString
  | str s => Except.ok s
  | arr items => join items
  | obj props =>
    if hasOwn props "toString" then
      Except.error (Module.Thrown.typeError "Cannot convert object to primitive value")
    else Except.ok "[object Object]"
end

end JsValue

/-- The request body seen through property lookup (lodash `_.get(req.body, key)`):
a key that is missing reads as `undefined`. -/
abbrev Body := String → JsValue

/-! ## validator.js -/

namespace validator

/-- The characters matched by the regular expression `\s`. -/
def isWhitespace (c : Char) : Bool :=
  let n := c.toNat
  n == 9 || n == 10 || n == 11 || n == 12 || n == 13 || n == 32 || n == 160 ||
  n == 5760 || (8192 ≤ n && n ≤ 8202) || n == 8232 || n == 8233 || n == 8239 ||
  n == 8287 || n == 12288 || n == 65279

/-- The function `ltrim(str)`: `str.replace(/^\s+/g, '')`. -/
def ltrim (str : String) : String :=
  ⟨str.data.dropWhile isWhitespace⟩

/-- The function `rtrim(str)`: steps back from the last character while it is whitespace
and slices there. -/
def rtrim (str : String) : String :=
  ⟨str.data.rdropWhile isWhitespace⟩

/-- The function `trim(str)`: `rtrim(ltrim(str))`. -/
def trim (str : String) : String :=
  rtrim (ltrim str)

/-- The function `isEmpty(str)` with the default options (`ignore_whitespace: false`):
`str.length === 0`. -/
def isEmpty (str : String) : Bool :=
  str.length == 0

end validator

/-! ## express-validator -/

namespace ExpressValidator

/-- The function `toString(value)` of `utils.ts`: the string a standard
sanitizer or validator is given.

* `undefined`, `null` and `NaN` become the empty string;
* an array goes through its own `toString()`, that is `join`;
* an object whose `toString` is truthy gives `"[object Object]"`: the
  inherited method when the object has no own `toString` property, and the
  prototype's method again when an own property holds a truthy value that is
  no function;
* an object whose own `toString` property is falsy (`null`, `false`, `0`, `""`)
  falls through to `isNaN(value)`, whose conversion to a number finds no
  callable `valueOf` or `toString` result and throws a `TypeError`;
* any other primitive is `String(value)`. -/
def toString : JsValue → Except Module.Thrown String
  | .undefined => Except.ok ""
  | .null => Except.ok ""
  | .num JsNumber.nan => Except.ok ""
  | .num x => Except.ok x.toString
  | .bool true => Except.ok "true"
  | .bool false => Except.ok "false"
  | .str s => Except.ok s
  | .arr items => JsValue.join items
  | .obj props =>
    match props.lookup "toString" with
    | none => Except.ok "[object Object]"
    | some own =>
      if own.truthy then Except.ok "[object Object]"
      else Except.error (Module.Thrown.typeError "Cannot convert object to primitive value")

/-- The strings of a list of values, in order; the first value that throws
ends the conversion. -/
def stringify : List JsValue → Except Module.Thrown (List String)
  | [] => Except.ok []
  | v :: rest =>
    match toString v with
    | Except.error e => Except.error e
    | Except.ok s =>
      match stringify rest with
      | Except.error e => Except.error e
      | Except.ok ss => Except.ok (s :: ss)

/-- A `FieldValidationError`. -/
structure ValidationError where
  type : String
  value : JsValue
  msg : String
  path : String
  location : String

/-- An item of a chain's stack: a standard sanitizer (`Sanitization`) or a
standard validator with its negation flag (`StandardValidation`). -/
inductive ContextItem where
  | sanitization (sanitizer : String → String)
  | standardValidation (validator : String → Bool) (negated : Bool)

/-- A validation chain under construction: the selected field and location,
the stack of items added so far and the `negateNext` flag set by `not()`. -/
structure ValidationChain where
  field : String
  location : String
  stack : List ContextItem
  negateNext : Bool

/-- The function `body(field)`: an empty chain on `req.body[field]`. -/
def body (field : String) : ValidationChain :=
  { field := field, location := "body", stack := [], negateNext := false }

namespace ValidationChain

/-- The method `.trim()`: adds the `validator.trim` sanitizer. -/
def trim (c : ValidationChain) : ValidationChain :=
  { c with stack := c.stack ++ [ContextItem.sanitization validator.trim] }

/-- The method `.not()`: negates the next validator. -/
def not (c : ValidationChain) : ValidationChain :=
  { c with negateNext := true }

/-- The method `.isEmpty()`: adds the `validator.isEmpty` validator with the pending
negation flag and clears the flag. -/
def isEmpty (c : ValidationChain) : ValidationChain :=
  { c with
    stack := c.stack ++ [ContextItem.standardValidation validator.isEmpty c.negateNext]
    negateNext := false }

/-- The method `.notEmpty()`: `this.not(); return this.isEmpty()`. -/
def notEmpty (c : ValidationChain) : ValidationChain :=
  c.not.isEmpty

end ValidationChain

/-- The values an item runs on: `Array.isArray(value) ? value : [value]`. -/
def wrap : JsValue → List JsValue
  | .arr items => items
  | v => [v]

/-- The error a standard validator adds for a value that fails. -/
def fieldError (value : JsValue) (path location : String) : ValidationError :=
  { type := "field", value := value, msg := "Invalid value", path := path, location := location }

namespace ContextItem

/-- The method `run(context, value, meta)` of an item: the new value of the
field instance and the errors added to the context, or the exception thrown
while a value was converted to a string.  A sanitizer maps over the wrapped
values and unwraps the result when the value was not an array; a validator
checks each wrapped value and leaves the instance as it is. -/
def run (item : ContextItem) (value : JsValue) (path location : String) :
    Except Module.Thrown (JsValue × List ValidationError) :=
  match stringify (wrap value) with
  | Except.error e => Except.error e
  | Except.ok strings =>
    match item with
    | sanitization sanitizer =>
      let newValues := strings.map (fun s => JsValue.str (sanitizer s))
      Except.ok
        (if value.isArray then JsValue.arr newValues else newValues.headD JsValue.undefined, [])
    | standardValidation validator negated =>
      let failed := ((wrap value).zip strings).filter (fun p =>
        let result := validator p.2
        if negated then result else !result)
      Except.ok (value, failed.map (fun p => fieldError p.1 path location))

end ContextItem

/-- The state threaded through a chain's run: the request body, the value of
the field instance, the errors of the chain's context, and the exception that
ended the run, if one was thrown. -/
structure RunState where
  body : Body
  value : JsValue
  errors : List ValidationError
  thrown : Option Module.Thrown

/-- One turn of the loop of `ContextRunnerImpl.run`: the item runs on the
instance value, its errors are added, and the value is written back to the
body (the library skips the write when the value is the one already there,
which leaves the same body).  An exception thrown by the item ends the loop:
nothing is written for that item and the items after it do not run. -/
def step (field location : String) (s : RunState) (item : ContextItem) : RunState :=
  match s.thrown with
  | some _ => s
  | none =>
    match item.run s.value field location with
    | Except.error e => { s with thrown := some e }
    | Except.ok r =>
      { body := Function.update s.body field r.1, value := r.1,
        errors := s.errors ++ r.2, thrown := none }

/-- The method `ContextRunnerImpl.run(req)` of a chain: selects the field
instance and runs the stack over it in order. -/
def ValidationChain.run (c : ValidationChain) (b : Body) : RunState :=
  c.stack.foldl (step c.field c.location)
    { body := b, value := b c.field, errors := [], thrown := none }

end ExpressValidator

/-! ## Express -/

namespace Express

/-- The request: its parsed body and the contexts express-validator has
attached to it (one list of errors per chain that has run to its end). -/
structure Request where
  body : Body
  contexts : List (List ExpressValidator.ValidationError)

/-- The response as far as a handler can touch it. -/
structure Response where
  headersSent : Bool
  statusCode : Nat
  written : List String

/-- What one handler did: the request and response it leaves, and its calls to
`next`, each with the error it passed (`none` for a plain `next()`). -/
structure Handled where
  req : Request
  res : Response
  nextCalls : List (Option Module.Thrown)

/-- A middleware function `(req, res, next) => ...`. -/
abbrev Handler := Request → Response → Handled

/-- The outcome of dispatching a request through a list of handlers: the final
request and response, every call to `next` made on the way, and whether control
left the list through the `next()` of its last handler. -/
structure Dispatched where
  req : Request
  res : Response
  nextCalls : List (Option Module.Thrown)
  passedOn : Bool

/-- The router's loop over a list of handlers mounted together: after a plain
`next()` the following handler runs; after `next(err)`, or when `next` is not
called, the remaining handlers of the list are skipped (an error goes to the
error handlers, by default the one that answers 500). -/
def dispatch : List Handler → Request → Response → Dispatched
  | [], req, res => { req := req, res := res, nextCalls := [], passedOn := true }
  | h :: rest, req, res =>
    let r := h req res
    match r.nextCalls with
    | none :: _ =>
      let d := dispatch rest r.req r.res
      { d with nextCalls := r.nextCalls ++ d.nextCalls }
    | _ => { req := r.req, res := r.res, nextCalls := r.nextCalls, passedOn := false }

/-- A request as the body parser hands it on: no chain has run on it yet. -/
def incoming (b : Body) : Request :=
  { body := b, contexts := [] }

/-- A response nothing has been written to. -/
def untouched : Response :=
  { headersSent := false, statusCode := 200, written := [] }

end Express

namespace ExpressValidator

/-- The middleware a chain is:
`try { await runner.run(req); next(); } catch (e) { next(e); }`.
A run that ends normally has written the sanitized value to the body and
attaches the context to the request; a run that throws attaches nothing and
hands the exception to `next`.  The response is not used. -/
def ValidationChain.middleware (c : ValidationChain) : Express.Handler :=
  fun req res =>
    let s := c.run req.body
    match s.thrown with
    | none =>
      { req := { body := s.body, contexts := req.contexts ++ [s.errors] }
        res := res
        nextCalls := [none] }
    | some e =>
      { req := { body := s.body, contexts := req.contexts }
        res := res
        nextCalls := [some e] }

/-- The errors `validationResult(req)` collects: those of every context
attached to the request, in order. -/
def validationResult (req : Express.Request) : List ValidationError :=
  req.contexts.flatten

end ExpressValidator

/-! ## src/middleware/validation.js -/

/-- The rule list of `validation.js`. -/
def validateDisasterInput : List ExpressValidator.ValidationChain :=
  [ (ExpressValidator.body "title").trim.notEmpty,
    (ExpressValidator.body "location").trim.notEmpty ]

/-- Running the rules of `validateDisasterInput` on a request body: the list is
mounted as middleware and an incoming request with that body is dispatched. -/
def runRules (b : Body) : Express.Dispatched :=
  Express.dispatch (validateDisasterInput.map ExpressValidator.ValidationChain.middleware)
    (Express.incoming b) Express.untouched

/-- The request body after the rules have run. -/
def sanitizedBody (b : Body) : Body :=
  (runRules b).req.body

/-- The validation errors recorded on the request after the rules have run. -/
def recordedErrors (b : Body) : List ExpressValidator.ValidationError :=
  ExpressValidator.validationResult (runRules b).req

/-! ## Notions used to state the results -/

namespace ExpressValidator

/-- Every value an item checks for a field value (the value, or each element
of an array) converts to a string without throwing. -/
def coerces (v : JsValue) : Prop :=
  ∀ x ∈ wrap v, ∃ s, toString x = Except.ok s

/-- The value the `trim` sanitizer leaves for a field value whose checked
values have the given strings. -/
def sanitized (v : JsValue) (strings : List String) : JsValue :=
  if v.isArray then JsValue.arr (strings.map (fun s => JsValue.str (validator.trim s)))
  else (strings.map (fun s => JsValue.str (validator.trim s))).headD JsValue.undefined

/-- The errors `notEmpty` adds after `trim` for checked values with the given
strings: one for each whose trimmed string is empty. -/
def emptyErrors (path : String) (strings : List String) : List ValidationError :=
  ((strings.map validator.trim).filter validator.isEmpty).map
    (fun t => fieldError (JsValue.str t) path "body")

end ExpressValidator

/-! ## React -/

namespace React

/-- A loader handed to `lazy`: calling it issues a dynamic `import()`.  It is
seen through its effect on the list of module specifiers requested so far. -/
abbrev Loader := List String → List String

/-- The status of a lazy component's payload. -/
inductive LazyStatus where
  | uninitialized
  | pending
  | resolved
  | rejected

/-- The payload of a lazy component: its status and, while uninitialized, the
loader. -/
structure LazyPayload where
  status : LazyStatus
  result : Loader

/-- The object `lazy` returns (its `_payload`; `_init` is `lazyInitializer`). -/
structure LazyComponent where
  payload : LazyPayload

/-- A function that is handed a loader and returns a component.  It runs with
the list of requested modules in its hands, so it is free to call the loader. -/
abbrev LoaderFunction := Loader → List String → LazyComponent × List String

/-- The function `lazy(ctor)`: stores the loader in a fresh uninitialized
payload and returns the component.  The loader is not called, so the list of
requested modules comes back as it went in. -/
def lazy : LoaderFunction :=
  fun ctor requested =>
    ({ payload := { status := LazyStatus.uninitialized, result := ctor } }, requested)

/-- The function `lazyInitializer(payload)`, which a render of the component calls: an
uninitialized payload has its loader called and becomes pending; any other
payload is left as it is. -/
def lazyInitializer (p : LazyPayload) (requested : List String) : LazyPayload × List String :=
  match p.status with
  | LazyStatus.uninitialized => ({ p with status := LazyStatus.pending }, p.result requested)
  | _ => (p, requested)

/-- The payload and the requested modules after `n` renders of the component. -/
def renders : Nat → LazyPayload → List String → LazyPayload × List String
  | 0, p, requested => (p, requested)
  | n + 1, p, requested =>
    let r := renders n p requested
    lazyInitializer r.1 r.2

end React

/-! ## Mongoose -/

namespace Mongoose

/-- The schema types covered here: `String`, the only one the file names. -/
inductive SchemaTypeName where
  | string

/-- A validator a string path can declare besides `required`. -/
inductive Validator where
  | minlength (n : Nat)
  | maxlength (n : Nat)
  | matchPattern (re : String → Bool)

/-- The kind of a validator error. -/
inductive ValidatorKind where
  | required
  | minlength
  | maxlength
  | regexp

/-- The options of a schema path that bear on what is stored and accepted:
`validators` holds the `minlength`, `maxlength` and `match` options in the
order they are declared. -/
structure SchemaTypeOptions where
  type : SchemaTypeName
  required : Bool := false
  unique : Bool := false
  index : Bool := false
  validators : List Validator := []
  default : Option String := none

/-- The shorthand `path: String`, which Mongoose reads as `path: { type: String }`. -/
def SchemaTypeOptions.ofType (t : SchemaTypeName) : SchemaTypeOptions :=
  { type := t }

/-- The options object of a schema. -/
structure SchemaOptions where
  timestamps : Bool := false

/-- A schema: the declared paths in order, and the schema options. -/
structure Schema where
  definition : List (String × SchemaTypeOptions)
  options : SchemaOptions

/-- The construction `new Schema(definition)`: no options object is passed. -/
def Schema.new (definition : List (String × SchemaTypeOptions)) : Schema :=
  { definition := definition, options := {} }

/-- The object a document is built from (`new Model(record)`), seen through
property lookup: a missing path reads as `undefined`. -/
abbrev Document := String → JsValue

/-- What a stored document holds on a string path: a string, or nothing. -/
abbrev StoredDocument := String → Option String

/-- The result of casting a value for a path: the value to store, or a
`CastError`. -/
inductive CastResult where
  | castError
  | value (v : Option String)

/-- The function `castString(value)` behind a String path: `null` and
`undefined` stay absent; an object with a non-empty string `_id` casts to that
id; a string, number or boolean casts to `String(value)`; an array, and any
other object (its `toString` is the default one or no function), fails with a
`CastError`. -/
def castString : JsValue → CastResult
  | .undefined => CastResult.value none
  | .null => CastResult.value none
  | .str s => CastResult.value (some s)
  | .num x => CastResult.value (some x.toString)
  | .bool true => CastResult.value (some "true")
  | .bool false => CastResult.value (some "false")
  | .arr _ => CastResult.castError
  | .obj props =>
    match props.lookup "_id" with
    | some (.str s) => if s.length != 0 then CastResult.value (some s) else CastResult.castError
    | _ => CastResult.castError

/-- The value of a path of a new document: the declared default when the
record leaves the path `undefined`, the cast of the record's value otherwise. -/
def SchemaTypeOptions.cast (o : SchemaTypeOptions) (raw : JsValue) : CastResult :=
  match o.type, raw with
  | SchemaTypeName.string, .undefined => CastResult.value o.default
  | SchemaTypeName.string, v => castString v

/-- Whether a string passes a validator: the length bounds, and the pattern
(which an empty string always passes). -/
def Validator.passes : Validator → String → Bool
  | minlength n, s => n ≤ s.length
  | maxlength n, s => s.length ≤ n
  | matchPattern re, s => s.length == 0 || re s

/-- The kind a failing validator reports. -/
def Validator.kind : Validator → ValidatorKind
  | minlength _ => ValidatorKind.minlength
  | maxlength _ => ValidatorKind.maxlength
  | matchPattern _ => ValidatorKind.regexp

/-- The validators of a string path run on a cast value, `required` first:
the kind of the first one that fails.  `required` fails on an absent or empty
string; the others pass on an absent value. -/
def SchemaTypeOptions.doValidate (o : SchemaTypeOptions) (value : Option String) :
    Option ValidatorKind :=
  if o.required && value.all (fun s => s.length == 0) then some ValidatorKind.required
  else
    match value with
    | none => none
    | some s => (o.validators.find? (fun v => !v.passes s)).map Validator.kind

/-- An entry of a `ValidationError`: a `CastError` or a `ValidatorError` at a
path. -/
inductive PathError where
  | cast (path : String)
  | validator (path : String) (kind : ValidatorKind)

/-- The error of one declared path for a record, if any: the cast error, or
the first failing validator on the cast value. -/
def pathError (path : String) (o : SchemaTypeOptions) (doc : Document) : Option PathError :=
  match o.cast (doc path) with
  | CastResult.castError => some (PathError.cast path)
  | CastResult.value v => (o.doValidate v).map (PathError.validator path)

/-- The method `doc.validateSync()` of `new Model(record)`: the errors of the
declared paths. -/
def Schema.validate (schema : Schema) (doc : Document) : List PathError :=
  schema.definition.filterMap (fun p => pathError p.1 p.2 doc)

/-- The document stored for a record: the cast value on each declared path,
nothing elsewhere (undeclared properties are dropped). -/
def Schema.store (schema : Schema) (doc : Document) : StoredDocument :=
  fun path =>
    match schema.definition.lookup path with
    | none => none
    | some o =>
      match o.cast (doc path) with
      | CastResult.castError => none
      | CastResult.value v => v

/-- Why a save is refused. -/
inductive SaveError where
  | validation (errors : List PathError)
  | duplicateKey (path : String)

/-- The method `doc.save()` into a collection: the document is validated, then
inserted unless a path with a unique index already holds the same value in the
collection. -/
def Schema.save (schema : Schema) (collection : List StoredDocument) (doc : Document) :
    Except SaveError (List StoredDocument) :=
  match schema.validate doc with
  | [] =>
    match schema.definition.find?
        (fun p => p.2.unique && collection.any (fun d => d p.1 == schema.store doc p.1)) with
    | some p => Except.error (SaveError.duplicateKey p.1)
    | none => Except.ok (collection ++ [schema.store doc])
  | e :: es => Except.error (SaveError.validation (e :: es))

end Mongoose

/-! ## src/models/User.js -/

/-- The schema of `User.js`, with `Schema` read as the constructor Mongoose
exports (the file itself does not bind the name). -/
def userSchema : Mongoose.Schema :=
  Mongoose.Schema.new
    [ ("name", Mongoose.SchemaTypeOptions.ofType Mongoose.SchemaTypeName.string),
      ("email", Mongoose.SchemaTypeOptions.ofType Mongoose.SchemaTypeName.string),
      ("password", Mongoose.SchemaTypeOptions.ofType Mongoose.SchemaTypeName.string) ]

/-! ## Module evaluation -/

namespace Module

/-- What an identifier of a module scope, or a property of an exports object,
can hold: something supplied by the runtime or by an installed package (named
by where it comes from), or one of the objects the three files build. -/
inductive Value where
  | host (name : String)
  | rules (chains : List ExpressValidator.ValidationChain)
  | component (c : React.LazyComponent)
  | schema (s : Mongoose.Schema)
  | undefined

/-- The state of a module while its top level runs: the bindings of its scope
(innermost first), its exports object, and the module specifiers it has
requested so far. -/
structure State where
  scope : List (String × Value)
  exports : List (String × Value)
  requested : List String

/-- The standard built-in globals of ECMAScript that every module sees. -/
def globals : List (String × Value) :=
  ["globalThis", "Object", "Function", "Array", "String", "Number", "Boolean", "Symbol",
    "BigInt", "Promise", "Error", "TypeError", "ReferenceError", "RegExp", "Date", "Map",
    "Set", "WeakMap", "WeakSet", "JSON", "Math", "Reflect", "Proxy", "console"].map
    (fun n => (n, Value.host n))

/-- The scope a CommonJS module starts in: the parameters of the module wrapper
on top of the globals; `module.exports` is a fresh empty object. -/
def commonJs : State :=
  { scope := ["exports", "require", "module", "__filename", "__dirname"].map
      (fun n => (n, Value.host n)) ++ globals
    exports := []
    requested := [] }

/-- The scope an ES module starts in: the globals only. -/
def esModule : State :=
  { scope := globals, exports := [], requested := [] }

/-- The exports of the packages the files name, as far as the files use them. -/
def packageExports : String → List (String × Value)
  | "express-validator" =>
    [ ("body", Value.host "express-validator.body"),
      ("validationResult", Value.host "express-validator.validationResult") ]
  | "react" =>
    [ ("default", Value.host "react.default"),
      ("lazy", Value.host "react.lazy") ]
  | _ => []

/-- Property read `object[name]`: `undefined` when the object has no such
property. -/
def property (object : List (String × Value)) (name : String) : Value :=
  (object.lookup name).getD Value.undefined

namespace State

/-- Evaluation of an identifier: its binding, or a `ReferenceError` when the
scope has none. -/
def lookup (s : State) (identifier : String) : Except Thrown Value :=
  match s.scope.lookup identifier with
  | some v => Except.ok v
  | none => Except.error (Thrown.referenceError identifier)

/-- A `const` declaration (or an import binding). -/
def declare (s : State) (identifier : String) (v : Value) : State :=
  { s with scope := (identifier, v) :: s.scope }

/-- A static `import`, `require(...)` or dynamic `import(...)` of a specifier. -/
def request (s : State) (specifier : String) : State :=
  { s with requested := s.requested ++ [specifier] }

end State

/-- The call `body(field)` on whatever `body` is bound to. -/
def callBody (callee : Value) (field : String) : Except Thrown ExpressValidator.ValidationChain :=
  match callee with
  | Value.host "express-validator.body" => Except.ok (ExpressValidator.body field)
  | _ => Except.error (Thrown.typeError "body is not a function")

/-- The call `lazy(loader)` on whatever `lazy` is bound to, with `lazyImpl` as
what the package `react` exports under that name.  The call runs with the
list of requested modules and returns it as the callee leaves it. -/
def callLazy (lazyImpl : React.LoaderFunction) (callee : Value) (loader : React.Loader)
    (requested : List String) : Except Thrown (React.LazyComponent × List String) :=
  match callee with
  | Value.host "react.lazy" => Except.ok (lazyImpl loader requested)
  | _ => Except.error (Thrown.typeError "lazy is not a function")

/-- The schema type a value names when it stands after a path in the object
passed to `Schema`.  Only `String` is covered; any other value is reported the
way Mongoose reports a value that names no type, as an invalid configuration. -/
def schemaType (v : Value) : Except Thrown Mongoose.SchemaTypeName :=
  match v with
  | Value.host "String" => Except.ok Mongoose.SchemaTypeName.string
  | _ => Except.error (Thrown.typeError "Invalid schema configuration")

/-- The construction `new Schema(definition)` on whatever `Schema` is bound to. -/
def construct (callee : Value) (definition : List (String × Mongoose.SchemaTypeOptions)) :
    Except Thrown Mongoose.Schema :=
  match callee with
  | Value.host "mongoose.Schema" => Except.ok (Mongoose.Schema.new definition)
  | _ => Except.error (Thrown.typeError "Schema is not a constructor")

end Module

/-! ## The top level of the three files -/

/-- The loader of `App.js`, `() => import('./components/DisasterMap')`. -/
def disasterMapLoader : React.Loader :=
  fun requested => requested ++ ["./components/DisasterMap"]

/-- The component of `App.js`, `lazy(() => import('./components/DisasterMap'))`. -/
def DisasterMap : React.LazyComponent :=
  (React.lazy disasterMapLoader ["react"]).1

section TopLevel

open Module

/-- Evaluation of `src/App.js`, an ES module, with `lazyImpl` as the function
the package `react` exports as `lazy`. -/
def evalAppWith (lazyImpl : React.LoaderFunction) : Except Thrown State := do
  -- line 1: import React, { lazy } from 'react';
  let s := esModule.request "react"
  let s := s.declare "React" (property (packageExports "react") "default")
  let s := s.declare "lazy" (property (packageExports "react") "lazy")
  -- line 4: const DisasterMap = lazy(() => import('./components/DisasterMap'));
  let callee ← s.lookup "lazy"
  let called ← callLazy lazyImpl callee disasterMapLoader s.requested
  let s := { s with requested := called.2 }
  let s := s.declare "DisasterMap" (Value.component called.1)
  -- line 6: export default DisasterMap;
  let exported ← s.lookup "DisasterMap"
  pure { s with exports := s.exports ++ [("default", exported)] }

/-- Evaluation of `src/App.js` with React's `lazy`. -/
def evalApp : Except Thrown State :=
  evalAppWith React.lazy

/-- Evaluation of `src/middleware/validation.js`, a CommonJS module. -/
def evalValidation : Except Thrown State := do
  -- line 2: const { body, validationResult } = require('express-validator');
  let _ ← commonJs.lookup "require"
  let s := commonJs.request "express-validator"
  let s := s.declare "body" (property (packageExports "express-validator") "body")
  let s := s.declare "validationResult"
    (property (packageExports "express-validator") "validationResult")
  -- lines 4 to 8: const validateDisasterInput = [ body('title')..., body('location')... ];
  let callee ← s.lookup "body"
  let title ← callBody callee "title"
  let callee ← s.lookup "body"
  let location ← callBody callee "location"
  pure (s.declare "validateDisasterInput"
    (Value.rules [title.trim.notEmpty, location.trim.notEmpty]))

/-- Evaluation of the statements of `src/models/User.js` from a given starting
state. -/
def evalUserFrom (s : State) : Except Thrown State := do
  -- lines 1 to 6: const userSchema = new Schema({ name: String, email: String, password: String });
  let callee ← s.lookup "Schema"
  let name ← (s.lookup "String") >>= schemaType
  let email ← (s.lookup "String") >>= schemaType
  let password ← (s.lookup "String") >>= schemaType
  let schema ← construct callee
    [ ("name", Mongoose.SchemaTypeOptions.ofType name),
      ("email", Mongoose.SchemaTypeOptions.ofType email),
      ("password", Mongoose.SchemaTypeOptions.ofType password) ]
  pure (s.declare "userSchema" (Value.schema schema))

/-- Evaluation of `src/models/User.js` as the file stands: it imports and
requires nothing, so it starts in the bare module scope. -/
def evalUser : Except Thrown State :=
  evalUserFrom commonJs

end TopLevel

/-! ## Sample inputs -/

/-- The body `{ title: [], location: "x" }`. -/
def emptyArrayBody : Body := fun k =>
  if k = "title" then JsValue.arr []
  else if k = "location" then JsValue.str "x"
  else JsValue.undefined

/-- The body `{ title: ["", "a"], location: "x" }`. -/
def emptyElementBody : Body := fun k =>
  if k = "title" then JsValue.arr [JsValue.str "", JsValue.str "a"]
  else if k = "location" then JsValue.str "x"
  else JsValue.undefined

/-- The body `{ title: 5, location: { lat: 1 } }`. -/
def nonStringBody : Body := fun k =>
  if k = "title" then JsValue.num (JsNumber.finite false 5 1)
  else if k = "location" then JsValue.obj [("lat", JsValue.num (JsNumber.finite false 1 1))]
  else JsValue.undefined

/-- The body `{ title: true, location: [1, 2] }`. -/
def flagAndListBody : Body := fun k =>
  if k = "title" then JsValue.bool true
  else if k = "location" then
    JsValue.arr [JsValue.num (JsNumber.finite false 1 1), JsValue.num (JsNumber.finite false 2 1)]
  else JsValue.undefined

/-- The body `{ title: [" a "], location: "x" }`. -/
def paddedArrayBody : Body := fun k =>
  if k = "title" then JsValue.arr [JsValue.str " a "]
  else if k = "location" then JsValue.str "x"
  else JsValue.undefined

/-- The body `{ title: "  Flood ", location: "   ", reporter: 7 }`. -/
def floodBody : Body := fun k =>
  if k = "title" then JsValue.str "  Flood "
  else if k = "location" then JsValue.str "   "
  else if k = "reporter" then JsValue.num (JsNumber.finite false 7 1)
  else JsValue.undefined

/-- The body `{ title: { toString: null }, location: "" }`. -/
def brokenTitleBody : Body := fun k =>
  if k = "title" then JsValue.obj [("toString", JsValue.null)]
  else if k = "location" then JsValue.str ""
  else JsValue.undefined

/-- The body `{ title: 1e21, location: 1.5 }`. -/
def largeNumberBody : Body := fun k =>
  if k = "title" then JsValue.num (JsNumber.finite false 1 22)
  else if k = "location" then JsValue.num (JsNumber.finite false 15 1)
  else JsValue.undefined

/-- The record `{ name: { a: 1 }, email: "a@b.c", password: "x" }`. -/
def objectNameRecord : Mongoose.Document := fun k =>
  if k = "name" then JsValue.obj [("a", JsValue.num (JsNumber.finite false 1 1))]
  else if k = "email" then JsValue.str "a@b.c"
  else if k = "password" then JsValue.str "x"
  else JsValue.undefined

/-- The record `{ name: ["a", "b"] }`. -/
def arrayNameRecord : Mongoose.Document := fun k =>
  if k = "name" then JsValue.arr [JsValue.str "a", JsValue.str "b"]
  else JsValue.undefined

/-- The record `{ email: "a@b.c", password: "" }`, which omits the name. -/
def sparseRecord : Mongoose.Document := fun k =>
  if k = "email" then JsValue.str "a@b.c"
  else if k = "password" then JsValue.str ""
  else JsValue.undefined

/-- A module scope in which `Schema` is bound to the constructor Mongoose
exports, as after `const { Schema } = require('mongoose')`. -/
def scopeWithSchema : Module.State :=
  Module.commonJs.declare "Schema" (Module.Value.host "mongoose.Schema")

/-! ## Facts about validator.js -/

namespace validator

theorem trim_data (s : String) :
    (trim s).data = (s.data.dropWhile isWhitespace).rdropWhile isWhitespace := rfl

theorem eq_empty_iff_data (s : String) : s = "" ↔ s.data = [] := by
  rw [String.ext_iff]

theorem isEmpty_iff (s : String) : isEmpty s = true ↔ s = "" := by
  rw [eq_empty_iff_data]
  show (s.data.length == 0) = true ↔ s.data = []
  rw [beq_iff_eq, List.length_eq_zero]

theorem dropWhile_head_not (l : List Char) (c : Char) (cs : List Char)
    (h : l.dropWhile isWhitespace = c :: cs) : isWhitespace c = false := by
  induction l with
  | nil => simp at h
  | cons a as ih =>
    by_cases ha : isWhitespace a = true
    · rw [List.dropWhile_cons_of_pos ha] at h
      exact ih h
    · rw [List.dropWhile_cons_of_neg ha] at h
      cases h
      simpa using ha

/-- The trimmed string is empty exactly when every character is whitespace. -/
theorem trim_eq_empty_iff (s : String) :
    trim s = "" ↔ ∀ c ∈ s.data, isWhitespace c = true := by
  rw [eq_empty_iff_data, trim_data, List.rdropWhile_eq_nil_iff]
  constructor
  · intro h
    cases hd : s.data.dropWhile isWhitespace with
    | nil => simpa [List.dropWhile_eq_nil_iff] using hd
    | cons c cs =>
      have h1 := dropWhile_head_not _ _ _ hd
      have h2 := h c (by rw [hd]; simp)
      rw [h1] at h2
      cases h2
  · intro h
    have : s.data.dropWhile isWhitespace = [] := by
      simpa [List.dropWhile_eq_nil_iff] using h
    rw [this]
    simp

theorem trim_idem (s : String) : trim (trim s) = trim s := by
  have key : ∀ l : List Char,
      ((l.dropWhile isWhitespace).rdropWhile isWhitespace).dropWhile isWhitespace
        = (l.dropWhile isWhitespace).rdropWhile isWhitespace := by
    intro l
    cases hd : l.dropWhile isWhitespace with
    | nil => simp
    | cons c cs =>
      have h1 := dropWhile_head_not _ _ _ hd
      cases hr : (c :: cs).rdropWhile isWhitespace with
      | nil => simp
      | cons d ds =>
        have hp : (d :: ds) <+: (c :: cs) := by
          rw [← hr]; exact List.rdropWhile_prefix _ _
        have hdc : d = c := by
          obtain ⟨t, ht⟩ := hp
          simp at ht
          exact ht.1
        subst hdc
        rw [List.dropWhile_cons_of_neg (by simp [h1])]
  apply String.ext
  rw [trim_data, trim_data, key, List.rdropWhile_idempotent]

end validator

/-! ## Number rendering -/

theorem toDigitsCore_acc_subset (fuel n : Nat) (acc : List Char) (c : Char) (hc : c ∈ acc) :
    c ∈ Nat.toDigitsCore 10 fuel n acc := by
  induction fuel generalizing n acc with
  | zero => simpa [Nat.toDigitsCore] using hc
  | succ k ih =>
    unfold Nat.toDigitsCore
    by_cases h0 : n / 10 = 0
    · simp only [h0, if_true]
      exact List.mem_cons_of_mem _ hc
    · simp only [h0, if_false]
      exact ih _ _ (List.mem_cons_of_mem _ hc)

theorem digitChar_mem_toDigits (n : Nat) : (n % 10).digitChar ∈ Nat.toDigits 10 n := by
  unfold Nat.toDigits Nat.toDigitsCore
  by_cases h0 : n / 10 = 0
  · simp only [h0, if_true]
    exact List.mem_cons_self _ _
  · simp only [h0, if_false]
    exact toDigitsCore_acc_subset _ _ _ _ (List.mem_cons_self _ _)

theorem digitChar_not_whitespace (k : Nat) (hk : k < 10) :
    validator.isWhitespace k.digitChar = false := by
  interval_cases k <;> rfl

theorem toDigits_has_visible (n : Nat) :
    ∃ c ∈ Nat.toDigits 10 n, validator.isWhitespace c = false :=
  ⟨(n % 10).digitChar, digitChar_mem_toDigits n,
    digitChar_not_whitespace _ (Nat.mod_lt _ (by decide))⟩

theorem renderFinite_has_visible (s : Nat) (n : Int) :
    ∃ c ∈ JsNumber.renderFinite (Nat.toDigits 10 s) n, validator.isWhitespace c = false := by
  obtain ⟨d, hd, hw⟩ := toDigits_has_visible s
  unfold JsNumber.renderFinite
  simp only
  split_ifs
  · exact ⟨d, List.mem_append_left _ hd, hw⟩
  · exact ⟨'.', List.mem_append_right _ (List.mem_cons_self _ _), by rfl⟩
  · exact ⟨'0', List.mem_cons_self _ _, by rfl⟩
  · exact ⟨'e', List.mem_append_right _ (List.mem_cons_self _ _), by rfl⟩
  · exact ⟨'.', List.mem_append_right _ (List.mem_cons_self _ _), by rfl⟩

/-- The text of every number has a character that is no whitespace. -/
theorem number_toString_has_visible (x : JsNumber) :
    ∃ c ∈ x.toString.data, validator.isWhitespace c = false := by
  cases x with
  | nan => exact ⟨'N', by decide, by rfl⟩
  | zero => exact ⟨'0', by decide, by rfl⟩
  | infinity negative =>
    cases negative
    · exact ⟨'I', by decide, by rfl⟩
    · exact ⟨'-', by decide, by rfl⟩
  | finite negative digits exponent =>
    obtain ⟨c, hc, hw⟩ := renderFinite_has_visible digits exponent
    exact ⟨c, List.mem_append_right _ hc, hw⟩

theorem trim_ne_empty_of_visible (s : String)
    (h : ∃ c ∈ s.data, validator.isWhitespace c = false) : validator.trim s ≠ "" := by
  intro he
  obtain ⟨c, hc, hw⟩ := h
  have := (validator.trim_eq_empty_iff s).1 he c hc
  rw [hw] at this
  cases this

/-! ## Facts about a chain's run -/

namespace ExpressValidator

theorem stringify_cons_ok (v : JsValue) (rest : List JsValue) (s : String) (ss : List String)
    (h1 : toString v = Except.ok s) (h2 : stringify rest = Except.ok ss) :
    stringify (v :: rest) = Except.ok (s :: ss) := by
  simp [stringify, h1, h2]

theorem stringify_eq_ok_iff (vs : List JsValue) (ss : List String) :
    stringify vs = Except.ok ss ↔ List.Forall₂ (fun v s => toString v = Except.ok s) vs ss := by
  induction vs generalizing ss with
  | nil =>
    constructor
    · intro h
      simp only [stringify, Except.ok.injEq] at h
      subst h
      exact List.Forall₂.nil
    · intro h
      cases h
      rfl
  | cons v rest ih =>
    constructor
    · intro h
      unfold stringify at h
      cases hv : toString v with
      | error e => rw [hv] at h; cases h
      | ok s =>
        rw [hv] at h
        cases hr : stringify rest with
        | error e => rw [hr] at h; cases h
        | ok ts =>
          rw [hr] at h
          simp only [Except.ok.injEq] at h
          subst h
          exact List.Forall₂.cons hv ((ih ts).1 hr)
    · intro h
      cases h with
      | cons h1 h2 => exact stringify_cons_ok _ _ _ _ h1 ((ih _).2 h2)

theorem stringify_ok_of_forall (vs : List JsValue)
    (h : ∀ x ∈ vs, ∃ s, toString x = Except.ok s) : ∃ ss, stringify vs = Except.ok ss := by
  induction vs with
  | nil => exact ⟨[], rfl⟩
  | cons v rest ih =>
    obtain ⟨s, hs⟩ := h v (List.mem_cons_self _ _)
    obtain ⟨ss, hss⟩ := ih (fun x hx => h x (List.mem_cons_of_mem _ hx))
    exact ⟨s :: ss, stringify_cons_ok _ _ _ _ hs hss⟩

theorem forall_of_stringify_ok (vs : List JsValue) (ss : List String)
    (h : stringify vs = Except.ok ss) : ∀ x ∈ vs, ∃ s, toString x = Except.ok s := by
  have h2 := (stringify_eq_ok_iff vs ss).1 h
  induction h2 with
  | nil => intro x hx; cases hx
  | cons h1 _ ih =>
    intro x hx
    rcases List.mem_cons.1 hx with rfl | hx
    · exact ⟨_, h1⟩
    · exact ih ((stringify_eq_ok_iff _ _).2 (by assumption)) x hx

theorem coerces_iff (v : JsValue) : coerces v ↔ ∃ ss, stringify (wrap v) = Except.ok ss :=
  ⟨fun h => stringify_ok_of_forall _ h, fun ⟨ss, h⟩ => forall_of_stringify_ok _ ss h⟩

theorem not_coerces_iff (v : JsValue) : ¬ coerces v ↔ ∃ e, stringify (wrap v) = Except.error e := by
  rw [coerces_iff]
  cases h : stringify (wrap v) with
  | error e => simp
  | ok ss => simp

/-- With the strings of a list of values at hand, a string of the list with a
property is the string of a value of the list. -/
theorem exists_string_iff (vs : List JsValue) (ss : List String)
    (h : stringify vs = Except.ok ss) (P : String → Prop) :
    (∃ s ∈ ss, P s) ↔ ∃ x ∈ vs, ∃ s, toString x = Except.ok s ∧ P s := by
  have h2 := (stringify_eq_ok_iff vs ss).1 h
  clear h
  induction h2 with
  | nil => simp
  | @cons v s rest ts h1 _ ih =>
    simp only [List.mem_cons, exists_eq_or_imp, ih]
    constructor
    · rintro (hp | hx)
      · exact Or.inl ⟨s, h1, hp⟩
      · exact Or.inr hx
    · rintro (⟨s', hs', hp⟩ | hx)
      · rw [h1] at hs'
        cases hs'
        exact Or.inl hp
      · exact Or.inr hx

theorem forall_string_iff (vs : List JsValue) (ss : List String)
    (h : stringify vs = Except.ok ss) (P : String → Prop) :
    (∀ s ∈ ss, P s) ↔ ∀ x ∈ vs, ∀ s, toString x = Except.ok s → P s := by
  have := exists_string_iff vs ss h (fun s => ¬ P s)
  constructor
  · intro hall x hx s hs
    by_contra hn
    obtain ⟨t, ht, hnt⟩ := this.2 ⟨x, hx, s, hs, hn⟩
    exact hnt (hall t ht)
  · intro hall s hs
    by_contra hn
    obtain ⟨x, hx, t, ht, hnt⟩ := this.1 ⟨s, hs, hn⟩
    exact hnt (hall x hx t ht)

theorem stringify_strs (ss : List String) (g : String → String) :
    stringify (ss.map (fun s => JsValue.str (g s))) = Except.ok (ss.map g) := by
  induction ss with
  | nil => rfl
  | cons s rest ih => exact stringify_cons_ok _ _ _ _ rfl ih

theorem stringify_singleton (v : JsValue) (ss : List String)
    (h : stringify [v] = Except.ok ss) : ∃ s, toString v = Except.ok s ∧ ss = [s] := by
  have h2 := (stringify_eq_ok_iff _ _).1 h
  cases h2 with
  | cons h1 h3 =>
    cases h3
    exact ⟨_, h1, rfl⟩

theorem wrap_of_not_array (v : JsValue) (h : v.isArray = false) : wrap v = [v] := by
  cases v <;> first | rfl | cases h

theorem wrap_sanitized (v : JsValue) (ss : List String)
    (h : stringify (wrap v) = Except.ok ss) :
    wrap (sanitized v ss) = ss.map (fun s => JsValue.str (validator.trim s)) := by
  by_cases ha : v.isArray = true
  · simp [sanitized, ha, wrap]
  · have ha' : v.isArray = false := by simpa using ha
    rw [wrap_of_not_array v ha'] at h
    obtain ⟨s, _, rfl⟩ := stringify_singleton v ss h
    simp [sanitized, ha', wrap]

theorem stringify_wrap_sanitized (v : JsValue) (ss : List String)
    (h : stringify (wrap v) = Except.ok ss) :
    stringify (wrap (sanitized v ss)) = Except.ok (ss.map validator.trim) := by
  rw [wrap_sanitized v ss h]
  exact stringify_strs ss validator.trim

theorem sanitized_isArray (v : JsValue) (ss : List String)
    (h : stringify (wrap v) = Except.ok ss) : (sanitized v ss).isArray = v.isArray := by
  by_cases ha : v.isArray = true
  · unfold sanitized
    rw [if_pos ha, ha]
    rfl
  · have ha' : v.isArray = false := by simpa using ha
    rw [wrap_of_not_array v ha'] at h
    obtain ⟨s, _, rfl⟩ := stringify_singleton v ss h
    unfold sanitized
    rw [if_neg ha, ha']
    rfl

theorem sanitized_idem (v : JsValue) (ss : List String)
    (h : stringify (wrap v) = Except.ok ss) :
    sanitized (sanitized v ss) (ss.map validator.trim) = sanitized v ss := by
  unfold sanitized
  rw [show (if v.isArray = true then
        JsValue.arr (ss.map (fun s => JsValue.str (validator.trim s)))
      else (ss.map (fun s => JsValue.str (validator.trim s))).headD JsValue.undefined)
      = sanitized v ss from rfl, sanitized_isArray v ss h]
  simp only [List.map_map]
  have : ((fun s => JsValue.str (validator.trim s)) ∘ validator.trim)
      = (fun s => JsValue.str (validator.trim s)) := by
    funext s
    simp [validator.trim_idem]
  rw [this]
  rfl

theorem emptyErrors_idem (path : String) (ss : List String) :
    emptyErrors path (ss.map validator.trim) = emptyErrors path ss := by
  unfold emptyErrors
  rw [List.map_map]
  have : (validator.trim ∘ validator.trim) = validator.trim := by
    funext s
    simp [validator.trim_idem]
  rw [this]

theorem failed_eq_emptyErrors (path : String) (ss : List String) :
    ((((ss.map (fun s => JsValue.str (validator.trim s))).zip (ss.map validator.trim)).filter
        (fun p => validator.isEmpty p.2)).map (fun p => fieldError p.1 path "body"))
      = emptyErrors path ss := by
  unfold emptyErrors
  induction ss with
  | nil => rfl
  | cons s rest ih =>
    simp only [List.map_cons, List.zip_cons_cons]
    by_cases he : validator.isEmpty (validator.trim s) = true
    · rw [List.filter_cons_of_pos (by simpa using he), List.filter_cons_of_pos he]
      simp only [List.map_cons]
      rw [ih]
    · rw [List.filter_cons_of_neg (by simpa using he), List.filter_cons_of_neg he]
      exact ih

theorem sanitization_run (v : JsValue) (path location : String) (ss : List String)
    (h : stringify (wrap v) = Except.ok ss) :
    (ContextItem.sanitization validator.trim).run v path location
      = Except.ok (sanitized v ss, []) := by
  unfold ContextItem.run
  rw [h]
  rfl

theorem validation_run (v : JsValue) (path : String) (ss : List String)
    (h : stringify (wrap v) = Except.ok ss) :
    (ContextItem.standardValidation validator.isEmpty true).run (sanitized v ss) path "body"
      = Except.ok (sanitized v ss, emptyErrors path ss) := by
  unfold ContextItem.run
  rw [stringify_wrap_sanitized v ss h, wrap_sanitized v ss h]
  simp only [if_true]
  rw [failed_eq_emptyErrors]

/-- The run of a rule `body(f).trim().notEmpty()` whose field converts. -/
theorem rule_run_ok (f : String) (b : Body) (ss : List String)
    (h : stringify (wrap (b f)) = Except.ok ss) :
    ((body f).trim.notEmpty).run b
      = { body := Function.update b f (sanitized (b f) ss), value := sanitized (b f) ss,
          errors := emptyErrors f ss, thrown := none } := by
  simp only [ValidationChain.run, ValidationChain.notEmpty, ValidationChain.isEmpty,
    ValidationChain.not, ValidationChain.trim, body, List.nil_append, List.cons_append,
    List.foldl_cons, List.foldl_nil, step, sanitization_run (b f) f "body" ss h,
    validation_run (b f) f ss h, Function.update_idem]

/-- The run of a rule `body(f).trim().notEmpty()` whose field throws. -/
theorem rule_run_error (f : String) (b : Body) (e : Module.Thrown)
    (h : stringify (wrap (b f)) = Except.error e) :
    ((body f).trim.notEmpty).run b
      = { body := b, value := b f, errors := [], thrown := some e } := by
  simp [ValidationChain.run, ValidationChain.notEmpty, ValidationChain.isEmpty,
    ValidationChain.not, ValidationChain.trim, body, step, ContextItem.run, h]

theorem mem_emptyErrors (path : String) (ss : List String) (e : ValidationError) :
    e ∈ emptyErrors path ss ↔
      (∃ s ∈ ss, validator.trim s = "") ∧ e = fieldError (JsValue.str "") path "body" := by
  simp only [emptyErrors, List.mem_map, List.mem_filter, validator.isEmpty_iff]
  constructor
  · rintro ⟨t, ⟨⟨s, hs, rfl⟩, he⟩, rfl⟩
    exact ⟨⟨s, hs, he⟩, by rw [he]⟩
  · rintro ⟨⟨s, hs, he⟩, rfl⟩
    exact ⟨validator.trim s, ⟨⟨s, hs, rfl⟩, he⟩, by rw [he]⟩

theorem path_of_mem_emptyErrors (path : String) (ss : List String) (e : ValidationError)
    (h : e ∈ emptyErrors path ss) : e.path = path := by
  obtain ⟨_, rfl⟩ := (mem_emptyErrors path ss e).1 h
  rfl

theorem emptyErrors_ne_nil_iff (path : String) (ss : List String) :
    emptyErrors path ss ≠ [] ↔ ∃ s ∈ ss, validator.trim s = "" := by
  constructor
  · intro hne
    obtain ⟨e, he⟩ := List.exists_mem_of_ne_nil _ hne
    exact ((mem_emptyErrors _ _ _).1 he).1
  · intro h
    exact List.ne_nil_of_mem ((mem_emptyErrors path ss _).2 ⟨h, rfl⟩)

theorem emptyErrors_eq_nil_iff (path : String) (ss : List String) :
    emptyErrors path ss = [] ↔ ∀ s ∈ ss, validator.trim s ≠ "" := by
  have := emptyErrors_ne_nil_iff path ss
  constructor
  · intro h s hs he
    exact (this.2 ⟨s, hs, he⟩) h
  · intro h
    by_contra hne
    obtain ⟨s, hs, he⟩ := this.1 hne
    exact h s hs he

end ExpressValidator

/-! ## The rule list in closed form -/

section ClosedForm

open ExpressValidator

theorem dispatch_title_error (req : Express.Request) (res : Express.Response)
    (e : Module.Thrown) (h : stringify (wrap (req.body "title")) = Except.error e) :
    Express.dispatch (validateDisasterInput.map ValidationChain.middleware) req res
      = { req := req, res := res, nextCalls := [some e], passedOn := false } := by
  simp [validateDisasterInput, Express.dispatch, ValidationChain.middleware,
    rule_run_error "title" req.body e h]

theorem dispatch_location_error (req : Express.Request) (res : Express.Response)
    (ss : List String) (e : Module.Thrown)
    (h1 : stringify (wrap (req.body "title")) = Except.ok ss)
    (h2 : stringify (wrap (req.body "location")) = Except.error e) :
    Express.dispatch (validateDisasterInput.map ValidationChain.middleware) req res
      = { req := { body := Function.update req.body "title" (sanitized (req.body "title") ss)
                   contexts := req.contexts ++ [emptyErrors "title" ss] }
          res := res, nextCalls := [none, some e], passedOn := false } := by
  have hne : ("location" : String) ≠ "title" := by decide
  have h2' : stringify (wrap ((Function.update req.body "title"
      (sanitized (req.body "title") ss)) "location")) = Except.error e := by
    rw [Function.update_noteq hne]
    exact h2
  simp [validateDisasterInput, Express.dispatch, ValidationChain.middleware,
    rule_run_ok "title" req.body ss h1, rule_run_error "location" _ e h2']

theorem dispatch_ok (req : Express.Request) (res : Express.Response)
    (ss ts : List String)
    (h1 : stringify (wrap (req.body "title")) = Except.ok ss)
    (h2 : stringify (wrap (req.body "location")) = Except.ok ts) :
    Express.dispatch (validateDisasterInput.map ValidationChain.middleware) req res
      = { req := { body := Function.update
                     (Function.update req.body "title" (sanitized (req.body "title") ss))
                     "location" (sanitized (req.body "location") ts)
                   contexts := req.contexts ++ [emptyErrors "title" ss, emptyErrors "location" ts] }
          res := res, nextCalls := [none, none], passedOn := true } := by
  have hne : ("location" : String) ≠ "title" := by decide
  have h2' : stringify (wrap ((Function.update req.body "title"
      (sanitized (req.body "title") ss)) "location")) = Except.ok ts := by
    rw [Function.update_noteq hne]
    exact h2
  simp [validateDisasterInput, Express.dispatch, ValidationChain.middleware,
    rule_run_ok "title" req.body ss h1, rule_run_ok "location" _ ts h2',
    Function.update_noteq hne]

theorem sanitizedBody_title_error (b : Body) (e : Module.Thrown)
    (h : stringify (wrap (b "title")) = Except.error e) :
    sanitizedBody b = b ∧ recordedErrors b = [] := by
  have := dispatch_title_error (Express.incoming b) Express.untouched e h
  unfold sanitizedBody recordedErrors runRules
  rw [this]
  exact ⟨rfl, rfl⟩

theorem sanitizedBody_location_error (b : Body) (ss : List String) (e : Module.Thrown)
    (h1 : stringify (wrap (b "title")) = Except.ok ss)
    (h2 : stringify (wrap (b "location")) = Except.error e) :
    sanitizedBody b = Function.update b "title" (sanitized (b "title") ss) ∧
    recordedErrors b = emptyErrors "title" ss := by
  have := dispatch_location_error (Express.incoming b) Express.untouched ss e h1 h2
  unfold sanitizedBody recordedErrors runRules
  rw [this]
  exact ⟨rfl, by simp [validationResult, Express.incoming]⟩

theorem sanitizedBody_ok (b : Body) (ss ts : List String)
    (h1 : stringify (wrap (b "title")) = Except.ok ss)
    (h2 : stringify (wrap (b "location")) = Except.ok ts) :
    sanitizedBody b = Function.update (Function.update b "title" (sanitized (b "title") ss))
        "location" (sanitized (b "location") ts) ∧
    recordedErrors b = emptyErrors "title" ss ++ emptyErrors "location" ts := by
  have := dispatch_ok (Express.incoming b) Express.untouched ss ts h1 h2
  unfold sanitizedBody recordedErrors runRules
  rw [this]
  exact ⟨rfl, by simp [validationResult, Express.incoming]⟩

theorem sanitizedBody_other (b : Body) (k : String) (h1 : k ≠ "title") (h2 : k ≠ "location") :
    sanitizedBody b k = b k := by
  cases ht : stringify (wrap (b "title")) with
  | error e => rw [(sanitizedBody_title_error b e ht).1]
  | ok ss =>
    cases hl : stringify (wrap (b "location")) with
    | error e =>
      rw [(sanitizedBody_location_error b ss e ht hl).1, Function.update_noteq h1]
    | ok ts =>
      rw [(sanitizedBody_ok b ss ts ht hl).1, Function.update_noteq h2, Function.update_noteq h1]

/-- An error is recorded for the title exactly when the title converts and one
of its strings is empty after trimming. -/
theorem error_for_title_iff (b : Body) :
    (∃ e ∈ recordedErrors b, e.path = "title") ↔
      ∃ ss, stringify (wrap (b "title")) = Except.ok ss ∧ ∃ s ∈ ss, validator.trim s = "" := by
  have hne : ("location" : String) ≠ "title" := by decide
  cases ht : stringify (wrap (b "title")) with
  | error e =>
    rw [(sanitizedBody_title_error b e ht).2]
    simp
  | ok ss =>
    have key : (∃ e ∈ emptyErrors "title" ss, e.path = "title")
        ↔ ∃ s ∈ ss, validator.trim s = "" := by
      rw [← emptyErrors_ne_nil_iff "title" ss]
      constructor
      · rintro ⟨e, he, _⟩
        exact List.ne_nil_of_mem he
      · intro hne'
        obtain ⟨e, he⟩ := List.exists_mem_of_ne_nil _ hne'
        exact ⟨e, he, path_of_mem_emptyErrors _ _ _ he⟩
    cases hl : stringify (wrap (b "location")) with
    | error e =>
      rw [(sanitizedBody_location_error b ss e ht hl).2]
      simp only [Except.ok.injEq, exists_eq_left']
      exact key
    | ok ts =>
      rw [(sanitizedBody_ok b ss ts ht hl).2]
      simp only [Except.ok.injEq, exists_eq_left', List.mem_append]
      rw [← key]
      constructor
      · rintro ⟨e, he | he, hp⟩
        · exact ⟨e, he, hp⟩
        · have := path_of_mem_emptyErrors _ _ _ he
          rw [hp] at this
          exact absurd this.symm hne
      · rintro ⟨e, he, hp⟩
        exact ⟨e, Or.inl he, hp⟩

/-- An error is recorded for the location exactly when the title converts, the
location converts, and one of the location's strings is empty after trimming. -/
theorem error_for_location_iff (b : Body) :
    (∃ e ∈ recordedErrors b, e.path = "location") ↔
      (∃ ss, stringify (wrap (b "title")) = Except.ok ss) ∧
      ∃ ts, stringify (wrap (b "location")) = Except.ok ts ∧
        ∃ s ∈ ts, validator.trim s = "" := by
  have hne : ("title" : String) ≠ "location" := by decide
  cases ht : stringify (wrap (b "title")) with
  | error e =>
    rw [(sanitizedBody_title_error b e ht).2]
    simp
  | ok ss =>
    cases hl : stringify (wrap (b "location")) with
    | error e =>
      rw [(sanitizedBody_location_error b ss e ht hl).2]
      constructor
      · rintro ⟨x, hx, hp⟩
        have := path_of_mem_emptyErrors _ _ _ hx
        rw [hp] at this
        exact absurd this.symm hne
      · rintro ⟨_, ts, hts, _⟩
        cases hts
    | ok ts =>
      rw [(sanitizedBody_ok b ss ts ht hl).2]
      simp only [Except.ok.injEq, exists_eq', true_and, exists_eq_left', List.mem_append]
      rw [← emptyErrors_ne_nil_iff "location" ts]
      constructor
      · rintro ⟨e, he | he, hp⟩
        · have := path_of_mem_emptyErrors _ _ _ he
          rw [hp] at this
          exact absurd this.symm hne
        · exact List.ne_nil_of_mem he
      · intro hne'
        obtain ⟨e, he⟩ := List.exists_mem_of_ne_nil _ hne'
        exact ⟨e, Or.inr he, path_of_mem_emptyErrors _ _ _ he⟩

end ClosedForm

/-! ## Errors of a field -/

section FieldErrors

open ExpressValidator

theorem coerces_of_stringify (v : JsValue) (ss : List String)
    (h : stringify (wrap v) = Except.ok ss) : coerces v :=
  (coerces_iff v).2 ⟨ss, h⟩

theorem error_for_field_imp (b : Body) (f : String) (hf : f ∈ ["title", "location"])
    (h : ∃ e ∈ recordedErrors b, e.path = f) :
    ∃ ss, stringify (wrap (b f)) = Except.ok ss ∧ ∃ s ∈ ss, validator.trim s = "" := by
  simp only [List.mem_cons, List.mem_singleton, List.not_mem_nil, or_false] at hf
  rcases hf with rfl | rfl
  · exact (error_for_title_iff b).1 h
  · exact ((error_for_location_iff b).1 h).2

theorem error_for_field_of (b : Body) (f : String) (hf : f ∈ ["title", "location"])
    (ht : coerces (b "title"))
    (h : ∃ ss, stringify (wrap (b f)) = Except.ok ss ∧ ∃ s ∈ ss, validator.trim s = "") :
    ∃ e ∈ recordedErrors b, e.path = f := by
  simp only [List.mem_cons, List.mem_singleton, List.not_mem_nil, or_false] at hf
  rcases hf with rfl | rfl
  · exact (error_for_title_iff b).2 h
  · exact (error_for_location_iff b).2 ⟨(coerces_iff _).1 ht, h⟩

theorem error_for_field_iff (b : Body) (f : String) (hf : f ∈ ["title", "location"])
    (ht : coerces (b "title")) (hc : coerces (b f)) :
    (∃ e ∈ recordedErrors b, e.path = f) ↔
      ∃ x ∈ wrap (b f), ∃ s, toString x = Except.ok s ∧ validator.trim s = "" := by
  obtain ⟨ss, hss⟩ := (coerces_iff _).1 hc
  rw [← exists_string_iff (wrap (b f)) ss hss (fun s => validator.trim s = "")]
  constructor
  · intro h
    obtain ⟨ts, hts, hex⟩ := error_for_field_imp b f hf h
    rw [hss] at hts
    cases hts
    exact hex
  · intro h
    exact error_for_field_of b f hf ht ⟨ss, hss, h⟩

theorem recordedErrors_eq_nil_iff (b : Body)
    (h1 : coerces (b "title")) (h2 : coerces (b "location")) :
    recordedErrors b = [] ↔
      ∀ f ∈ ["title", "location"], ∀ x ∈ wrap (b f), ∀ s,
        toString x = Except.ok s → validator.trim s ≠ "" := by
  obtain ⟨ss, hss⟩ := (coerces_iff _).1 h1
  obtain ⟨ts, hts⟩ := (coerces_iff _).1 h2
  rw [(sanitizedBody_ok b ss ts hss hts).2, List.append_eq_nil, emptyErrors_eq_nil_iff,
    emptyErrors_eq_nil_iff,
    forall_string_iff (wrap (b "title")) ss hss (fun s => validator.trim s ≠ ""),
    forall_string_iff (wrap (b "location")) ts hts (fun s => validator.trim s ≠ "")]
  constructor
  · rintro ⟨a, c⟩ f hf
    simp only [List.mem_cons, List.mem_singleton, List.not_mem_nil, or_false] at hf
    rcases hf with rfl | rfl
    · exact a
    · exact c
  · intro h
    exact ⟨h "title" (by simp), h "location" (by simp)⟩

theorem toString_obj_eq (props : List (String × JsValue)) (s : String)
    (h : toString (JsValue.obj props) = Except.ok s) : s = "[object Object]" := by
  simp only [ExpressValidator.toString] at h
  cases hl : props.lookup "toString" with
  | none =>
    rw [hl] at h
    simp only [Except.ok.injEq] at h
    exact h.symm
  | some own =>
    rw [hl] at h
    by_cases ho : own.truthy = true
    · simp only [ho, if_true, Except.ok.injEq] at h
      exact h.symm
    · simp only [ho] at h
      cases h

theorem toString_num_eq (x : JsNumber) (hx : x ≠ JsNumber.nan) :
    toString (JsValue.num x) = Except.ok x.toString := by
  cases x with
  | nan => exact absurd rfl hx
  | zero => rfl
  | infinity negative => rfl
  | finite negative digits exponent => rfl

end FieldErrors

/-! ## C1: when the rules record no error -/

/-- C1 (amended): for every request body whose `title` and `location` convert
to strings without throwing, the rules of `validateDisasterInput` record no
validation error exactly when, for both fields, every checked value (the
field's value, or each element when the value is an array) has a non-empty
string after conversion and trimming; when neither field is an array this
says that both are present and non-empty after trimming.  A missing title, an
empty one and a whitespace-only one each record an error for the title, and so
does the location for itself when the title converts.  When the title does not
convert (its conversion throws), nothing is recorded at all; when only the
location does not convert, the errors recorded are those of the title. -/
theorem validateDisasterInput_no_error_iff (b : Body) :
    (ExpressValidator.coerces (b "title") → ExpressValidator.coerces (b "location") →
      (recordedErrors b = [] ↔
        ∀ f ∈ ["title", "location"], ∀ x ∈ ExpressValidator.wrap (b f), ∀ s,
          ExpressValidator.toString x = Except.ok s → validator.trim s ≠ "")) ∧
    (ExpressValidator.coerces (b "title") → ExpressValidator.coerces (b "location") →
      (b "title").isArray = false → (b "location").isArray = false →
      (recordedErrors b = [] ↔
        ∀ f ∈ ["title", "location"],
          b f ≠ JsValue.undefined ∧
          ∀ s, ExpressValidator.toString (b f) = Except.ok s → validator.trim s ≠ "")) ∧
    ((b "title" = JsValue.undefined ∨
        ∃ s, b "title" = JsValue.str s ∧ ∀ c ∈ s.data, validator.isWhitespace c = true) →
      ∃ e ∈ recordedErrors b, e.path = "title") ∧
    (ExpressValidator.coerces (b "title") →
      (b "location" = JsValue.undefined ∨
        ∃ s, b "location" = JsValue.str s ∧ ∀ c ∈ s.data, validator.isWhitespace c = true) →
      ∃ e ∈ recordedErrors b, e.path = "location") ∧
    (¬ ExpressValidator.coerces (b "title") → recordedErrors b = []) ∧
    (ExpressValidator.coerces (b "title") → ¬ ExpressValidator.coerces (b "location") →
      (recordedErrors b = [] ↔
        ∀ x ∈ ExpressValidator.wrap (b "title"), ∀ s,
          ExpressValidator.toString x = Except.ok s → validator.trim s ≠ "")) := by
  have blank : ∀ v : JsValue,
      (v = JsValue.undefined ∨
        ∃ s, v = JsValue.str s ∧ ∀ c ∈ s.data, validator.isWhitespace c = true) →
      ∃ ss, ExpressValidator.stringify (ExpressValidator.wrap v) = Except.ok ss ∧
        ∃ s ∈ ss, validator.trim s = "" := by
    intro v hv
    rcases hv with rfl | ⟨s, rfl, hall⟩
    · exact ⟨[""], rfl, "", List.mem_singleton_self _, rfl⟩
    · exact ⟨[s], rfl, s, List.mem_singleton_self _, (validator.trim_eq_empty_iff s).2 hall⟩
  refine ⟨recordedErrors_eq_nil_iff b, ?_, ?_, ?_, ?_, ?_⟩
  · intro h1 h2 a1 a2
    rw [recordedErrors_eq_nil_iff b h1 h2]
    have hw : ∀ f ∈ ["title", "location"], ExpressValidator.wrap (b f) = [b f] := by
      intro f hf
      simp only [List.mem_cons, List.mem_singleton, List.not_mem_nil, or_false] at hf
      rcases hf with rfl | rfl
      · exact ExpressValidator.wrap_of_not_array _ a1
      · exact ExpressValidator.wrap_of_not_array _ a2
    constructor
    · intro h f hf
      have ht := h f hf (b f) (by rw [hw f hf]; exact List.mem_singleton_self _)
      refine ⟨?_, ht⟩
      intro hu
      rw [hu] at ht
      exact ht "" rfl rfl
    · intro h f hf x hx
      rw [hw f hf, List.mem_singleton] at hx
      subst hx
      exact (h f hf).2
  · intro hcase
    exact (error_for_title_iff b).2 (blank _ hcase)
  · intro ht hcase
    exact (error_for_location_iff b).2 ⟨(ExpressValidator.coerces_iff _).1 ht, blank _ hcase⟩
  · intro hn
    obtain ⟨e, he⟩ := (ExpressValidator.not_coerces_iff _).1 hn
    exact (sanitizedBody_title_error b e he).2
  · intro h1 hn
    obtain ⟨ss, hss⟩ := (ExpressValidator.coerces_iff _).1 h1
    obtain ⟨e, he⟩ := (ExpressValidator.not_coerces_iff _).1 hn
    rw [(sanitizedBody_location_error b ss e hss he).2, ExpressValidator.emptyErrors_eq_nil_iff,
      ExpressValidator.forall_string_iff _ ss hss (fun s => validator.trim s ≠ "")]

/-- C1, at `{ title: "  Flood ", location: "   " }`: the title converts, and
the whitespace-only location records an error. -/
theorem validateDisasterInput_no_error_iff_witness :
    ∃ e ∈ recordedErrors floodBody, e.path = "location" :=
  (validateDisasterInput_no_error_iff floodBody).2.2.2.1
    (coerces_of_stringify _ ["  Flood "] rfl)
    (Or.inr ⟨"   ", rfl, by decide⟩)

/-- C1 fails as stated.  At `{ title: [], location: "x" }` no error is recorded
although the title's string is empty; at `{ title: ["", "a"], location: "x" }`
an error is recorded although both fields are present, have a non-empty trimmed
string, and are not stored as the empty string; at
`{ title: { toString: null }, location: "" }` the title's conversion throws and
no error is recorded although the location is the empty string. -/
theorem validateDisasterInput_array_field_counterexample :
    (recordedErrors emptyArrayBody = [] ∧
      ExpressValidator.toString (emptyArrayBody "title") = Except.ok "") ∧
    (recordedErrors emptyElementBody ≠ [] ∧
      ∀ f ∈ ["title", "location"],
        emptyElementBody f ≠ JsValue.undefined ∧
        (∃ s, ExpressValidator.toString (emptyElementBody f) = Except.ok s ∧
          validator.trim s ≠ "") ∧
        sanitizedBody emptyElementBody f ≠ JsValue.str "") ∧
    (recordedErrors brokenTitleBody = [] ∧ brokenTitleBody "location" = JsValue.str "") := by
  refine ⟨⟨rfl, rfl⟩, ⟨?_, ?_⟩, ⟨rfl, rfl⟩⟩
  · intro h
    have : (recordedErrors emptyElementBody).length = 1 := rfl
    rw [h] at this
    cases this
  · intro f hf
    simp only [List.mem_cons, List.mem_singleton, List.not_mem_nil, or_false] at hf
    rcases hf with rfl | rfl
    · refine ⟨?_, ⟨",a", rfl, ?_⟩, ?_⟩
      · intro h; cases h
      · intro h
        have : (validator.trim ",a").length = 2 := rfl
        rw [h] at this
        cases this
      · intro h
        have : sanitizedBody emptyElementBody "title"
            = JsValue.arr [JsValue.str "", JsValue.str "a"] := rfl
        rw [this] at h
        cases h
    · refine ⟨?_, ⟨"x", rfl, ?_⟩, ?_⟩
      · intro h; cases h
      · intro h
        have : (validator.trim "x").length = 1 := rfl
        rw [h] at this
        cases this
      · intro h
        have : sanitizedBody emptyElementBody "location" = JsValue.str "x" := rfl
        rw [this] at h
        have : ("x" : String).length = ("" : String).length := by
          injection h with h'
          rw [h']
        cases this

/-! ## C2: values that are not strings -/

/-- C2 (amended): the rules do not require a string.  A value that is no
string is converted to one, trimmed and checked like a string: when `title`
and `location` both convert, a field has an error recorded exactly when one of
its checked values (the value, or each element of an array) has an empty
string after conversion and trimming.  A number other than `NaN`, a boolean
and an object never record an error for their field; `null` and `NaN` record
one when the title converts; an object whose own `toString` property is falsy
does not convert at all (the conversion throws). -/
theorem validateDisasterInput_coerces_non_strings (b : Body) (f : String)
    (hf : f ∈ ["title", "location"]) :
    (ExpressValidator.coerces (b "title") → ExpressValidator.coerces (b "location") →
      ((∃ e ∈ recordedErrors b, e.path = f) ↔
        ∃ x ∈ ExpressValidator.wrap (b f), ∃ s,
          ExpressValidator.toString x = Except.ok s ∧ validator.trim s = "")) ∧
    (((∃ x, b f = JsValue.num x ∧ x ≠ JsNumber.nan) ∨ (∃ t, b f = JsValue.bool t) ∨
        (∃ p, b f = JsValue.obj p)) →
      ¬ ∃ e ∈ recordedErrors b, e.path = f) ∧
    (ExpressValidator.coerces (b "title") →
      (b f = JsValue.null ∨ b f = JsValue.num JsNumber.nan) →
      ∃ e ∈ recordedErrors b, e.path = f) ∧
    (∀ props own, b f = JsValue.obj props → props.lookup "toString" = some own →
      own.truthy = false →
      ExpressValidator.toString (b f)
          = Except.error (Module.Thrown.typeError "Cannot convert object to primitive value") ∧
        ¬ ExpressValidator.coerces (b f)) := by
  refine ⟨?_, ?_, ?_, ?_⟩
  · intro h1 h2
    have hc : ExpressValidator.coerces (b f) := by
      simp only [List.mem_cons, List.mem_singleton, List.not_mem_nil, or_false] at hf
      rcases hf with rfl | rfl
      · exact h1
      · exact h2
    exact error_for_field_iff b f hf h1 hc
  · intro hcase herr
    obtain ⟨ss, hss, s, hs, hempty⟩ := error_for_field_imp b f hf herr
    rcases hcase with ⟨x, hx, hnan⟩ | ⟨t, ht⟩ | ⟨p, hp⟩
    · rw [hx] at hss
      obtain ⟨s', hs', rfl⟩ := ExpressValidator.stringify_singleton _ ss hss
      rw [toString_num_eq x hnan] at hs'
      cases hs'
      rw [List.mem_singleton] at hs
      subst hs
      exact trim_ne_empty_of_visible _ (number_toString_has_visible x) hempty
    · rw [ht] at hss
      obtain ⟨s', hs', rfl⟩ := ExpressValidator.stringify_singleton _ ss hss
      rw [List.mem_singleton] at hs
      subst hs
      cases t
      · cases hs'
        have : (validator.trim "false").length = 5 := rfl
        rw [hempty] at this
        cases this
      · cases hs'
        have : (validator.trim "true").length = 4 := rfl
        rw [hempty] at this
        cases this
    · rw [hp] at hss
      obtain ⟨s', hs', rfl⟩ := ExpressValidator.stringify_singleton _ ss hss
      rw [List.mem_singleton] at hs
      subst hs
      have := toString_obj_eq p s hs'
      subst this
      have : (validator.trim "[object Object]").length = 15 := rfl
      rw [hempty] at this
      cases this
  · intro ht hcase
    apply error_for_field_of b f hf ht
    rcases hcase with h | h
    · rw [h]
      exact ⟨[""], rfl, "", List.mem_singleton_self _, rfl⟩
    · rw [h]
      exact ⟨[""], rfl, "", List.mem_singleton_self _, rfl⟩
  · intro props own hobj hown hfalsy
    have hthrow : ExpressValidator.toString (JsValue.obj props)
        = Except.error (Module.Thrown.typeError "Cannot convert object to primitive value") := by
      simp [ExpressValidator.toString, hown, hfalsy]
    rw [hobj]
    refine ⟨hthrow, ?_⟩
    intro hc
    obtain ⟨s, hs⟩ := hc (JsValue.obj props) (List.mem_singleton_self _)
    rw [hthrow] at hs
    cases hs

/-- C2, at `{ title: 5, location: { lat: 1 } }`: the numeric title records no
error. -/
theorem validateDisasterInput_coerces_non_strings_witness :
    ¬ ∃ e ∈ recordedErrors nonStringBody, e.path = "title" :=
  (validateDisasterInput_coerces_non_strings nonStringBody "title" (by simp)).2.1
    (Or.inl ⟨JsNumber.finite false 5 1, rfl, by intro h; cases h⟩)

/-- C2 fails as stated: `{ title: 5, location: { lat: 1 } }`,
`{ title: true, location: [1, 2] }` and `{ title: 1e21, location: 1.5 }` hold
numbers, an object, a boolean and an array in place of strings, and no
validation error is recorded for any of them. -/
theorem validateDisasterInput_non_string_counterexample :
    recordedErrors nonStringBody = [] ∧ recordedErrors flagAndListBody = [] ∧
    recordedErrors largeNumberBody = [] ∧
    sanitizedBody nonStringBody "title" = JsValue.str "5" ∧
    sanitizedBody nonStringBody "location" = JsValue.str "[object Object]" ∧
    sanitizedBody flagAndListBody "title" = JsValue.str "true" ∧
    sanitizedBody flagAndListBody "location" = JsValue.arr [JsValue.str "1", JsValue.str "2"] ∧
    sanitizedBody largeNumberBody "title" = JsValue.str "1e+21" ∧
    sanitizedBody largeNumberBody "location" = JsValue.str "1.5" :=
  ⟨rfl, rfl, rfl, rfl, rfl, rfl, rfl, rfl, rfl⟩

/-! ## C7: what the rules change -/

/-- C7 (amended): for every request body the rules leave every field other than
`title` and `location` unchanged.  When the title converts, a `title` that is
not an array is replaced by its converted and trimmed string and one that is an
array by the array of its elements' converted and trimmed strings; the same
holds for `location` when the title and the location both convert.  A title
whose conversion throws leaves the whole body as it was, and a location whose
conversion throws is left as it was.  In every case, running the rules again on
the resulting body changes nothing further and records the same errors. -/
theorem validateDisasterInput_frame_and_idempotent (b : Body) :
    (∀ k, k ≠ "title" → k ≠ "location" → sanitizedBody b k = b k) ∧
    (∀ f ∈ ["title", "location"],
      ExpressValidator.coerces (b "title") → ExpressValidator.coerces (b f) →
      ((b f).isArray = false →
        ∃ s, ExpressValidator.toString (b f) = Except.ok s ∧
          sanitizedBody b f = JsValue.str (validator.trim s)) ∧
      (∀ items, b f = JsValue.arr items →
        ∃ ss, ExpressValidator.stringify items = Except.ok ss ∧
          sanitizedBody b f = JsValue.arr (ss.map (fun s => JsValue.str (validator.trim s))))) ∧
    (¬ ExpressValidator.coerces (b "title") → sanitizedBody b = b) ∧
    (¬ ExpressValidator.coerces (b "location") → sanitizedBody b "location" = b "location") ∧
    sanitizedBody (sanitizedBody b) = sanitizedBody b ∧
    recordedErrors (sanitizedBody b) = recordedErrors b := by
  have hne : ("title" : String) ≠ "location" := by decide
  have shape : ∀ (v : JsValue) (ss : List String),
      ExpressValidator.stringify (ExpressValidator.wrap v) = Except.ok ss →
      ((v.isArray = false →
        ∃ s, ExpressValidator.toString v = Except.ok s ∧
          ExpressValidator.sanitized v ss = JsValue.str (validator.trim s)) ∧
      (∀ items, v = JsValue.arr items →
        ∃ ts, ExpressValidator.stringify items = Except.ok ts ∧
          ExpressValidator.sanitized v ss
            = JsValue.arr (ts.map (fun s => JsValue.str (validator.trim s))))) := by
    intro v ss hss
    constructor
    · intro ha
      rw [ExpressValidator.wrap_of_not_array v ha] at hss
      obtain ⟨s, hs, rfl⟩ := ExpressValidator.stringify_singleton v ss hss
      refine ⟨s, hs, ?_⟩
      unfold ExpressValidator.sanitized
      rw [ha]
      rfl
    · rintro items rfl
      exact ⟨ss, hss, rfl⟩
  have both : sanitizedBody (sanitizedBody b) = sanitizedBody b ∧
      recordedErrors (sanitizedBody b) = recordedErrors b := by
    cases ht : ExpressValidator.stringify (ExpressValidator.wrap (b "title")) with
    | error e =>
      rw [(sanitizedBody_title_error b e ht).1]
      exact ⟨(sanitizedBody_title_error b e ht).1, rfl⟩
    | ok ss =>
      have ht2 := ExpressValidator.stringify_wrap_sanitized (b "title") ss ht
      cases hl : ExpressValidator.stringify (ExpressValidator.wrap (b "location")) with
      | error e =>
        obtain ⟨hb, he⟩ := sanitizedBody_location_error b ss e ht hl
        have t1 : sanitizedBody b "title" = ExpressValidator.sanitized (b "title") ss := by
          rw [hb, Function.update_same]
        have l1 : sanitizedBody b "location" = b "location" := by
          rw [hb, Function.update_noteq hne.symm]
        have ht' : ExpressValidator.stringify (ExpressValidator.wrap (sanitizedBody b "title"))
            = Except.ok (ss.map validator.trim) := by rw [t1]; exact ht2
        have hl' : ExpressValidator.stringify (ExpressValidator.wrap (sanitizedBody b "location"))
            = Except.error e := by rw [l1]; exact hl
        obtain ⟨hb2, he2⟩ := sanitizedBody_location_error (sanitizedBody b) _ e ht' hl'
        constructor
        · rw [hb2, t1, ExpressValidator.sanitized_idem _ _ ht, ← t1, Function.update_eq_self]
        · rw [he2, he, ExpressValidator.emptyErrors_idem]
      | ok ts =>
        have hl2 := ExpressValidator.stringify_wrap_sanitized (b "location") ts hl
        obtain ⟨hb, he⟩ := sanitizedBody_ok b ss ts ht hl
        have t1 : sanitizedBody b "title" = ExpressValidator.sanitized (b "title") ss := by
          rw [hb, Function.update_noteq hne, Function.update_same]
        have l1 : sanitizedBody b "location"
            = ExpressValidator.sanitized (b "location") ts := by
          rw [hb, Function.update_same]
        have ht' : ExpressValidator.stringify (ExpressValidator.wrap (sanitizedBody b "title"))
            = Except.ok (ss.map validator.trim) := by rw [t1]; exact ht2
        have hl' : ExpressValidator.stringify (ExpressValidator.wrap (sanitizedBody b "location"))
            = Except.ok (ts.map validator.trim) := by rw [l1]; exact hl2
        obtain ⟨hb2, he2⟩ := sanitizedBody_ok (sanitizedBody b) _ _ ht' hl'
        constructor
        · rw [hb2, t1, l1, ExpressValidator.sanitized_idem _ _ ht,
            ExpressValidator.sanitized_idem _ _ hl, ← t1, ← l1, Function.update_eq_self,
            Function.update_eq_self]
        · rw [he2, he, ExpressValidator.emptyErrors_idem, ExpressValidator.emptyErrors_idem]
  refine ⟨sanitizedBody_other b, ?_, ?_, ?_, both.1, both.2⟩
  · intro f hf h1 hc
    obtain ⟨ss, hss⟩ := (ExpressValidator.coerces_iff _).1 h1
    simp only [List.mem_cons, List.mem_singleton, List.not_mem_nil, or_false] at hf
    rcases hf with rfl | rfl
    · have t1 : sanitizedBody b "title" = ExpressValidator.sanitized (b "title") ss := by
        cases hl : ExpressValidator.stringify (ExpressValidator.wrap (b "location")) with
        | error e =>
          rw [(sanitizedBody_location_error b ss e hss hl).1, Function.update_same]
        | ok ts =>
          rw [(sanitizedBody_ok b ss ts hss hl).1, Function.update_noteq hne,
            Function.update_same]
      rw [t1]
      exact shape _ ss hss
    · obtain ⟨ts, hts⟩ := (ExpressValidator.coerces_iff _).1 hc
      have l1 : sanitizedBody b "location" = ExpressValidator.sanitized (b "location") ts := by
        rw [(sanitizedBody_ok b ss ts hss hts).1, Function.update_same]
      rw [l1]
      exact shape _ ts hts
  · intro hn
    obtain ⟨e, he⟩ := (ExpressValidator.not_coerces_iff _).1 hn
    exact (sanitizedBody_title_error b e he).1
  · intro hn
    obtain ⟨e, he⟩ := (ExpressValidator.not_coerces_iff _).1 hn
    cases ht : ExpressValidator.stringify (ExpressValidator.wrap (b "title")) with
    | error e' => rw [(sanitizedBody_title_error b e' ht).1]
    | ok ss =>
      rw [(sanitizedBody_location_error b ss e ht he).1, Function.update_noteq hne.symm]

/-- C7, at `{ title: "  Flood ", location: "   ", reporter: 7 }`: the
`reporter` field is left as it was. -/
theorem validateDisasterInput_frame_and_idempotent_witness :
    sanitizedBody floodBody "reporter" = JsValue.num (JsNumber.finite false 7 1) :=
  (validateDisasterInput_frame_and_idempotent floodBody).1 "reporter" (by decide) (by decide)

/-- C7 fails as stated: at `{ title: [" a "], location: "x" }` the title is
replaced by the array `["a"]`, which is no string; at
`{ title: { toString: null }, location: "" }` the title's conversion throws and
the title stays the object it was. -/
theorem validateDisasterInput_array_replacement_counterexample :
    (sanitizedBody paddedArrayBody "title" = JsValue.arr [JsValue.str "a"] ∧
      ¬ ∃ s, sanitizedBody paddedArrayBody "title" = JsValue.str s) ∧
    (sanitizedBody brokenTitleBody "title" = JsValue.obj [("toString", JsValue.null)] ∧
      ¬ ∃ s, sanitizedBody brokenTitleBody "title" = JsValue.str s) := by
  refine ⟨⟨rfl, ?_⟩, ⟨rfl, ?_⟩⟩
  · rintro ⟨s, hs⟩
    have : sanitizedBody paddedArrayBody "title" = JsValue.arr [JsValue.str "a"] := rfl
    rw [this] at hs
    cases hs
  · rintro ⟨s, hs⟩
    have : sanitizedBody brokenTitleBody "title" = JsValue.obj [("toString", JsValue.null)] := rfl
    rw [this] at hs
    cases hs

/-! ## The library models are not vacuous -/

/-- A path declared `required` rejects a record that omits it, and a path with
`minlength` rejects a string that is too short. -/
theorem Mongoose.declared_options_reject :
    (Mongoose.Schema.new
      [("email", { type := Mongoose.SchemaTypeName.string, required := true })]).validate
        (fun _ => JsValue.undefined)
      = [Mongoose.PathError.validator "email" Mongoose.ValidatorKind.required] ∧
    (Mongoose.Schema.new
      [("password", { type := Mongoose.SchemaTypeName.string,
                      validators := [Mongoose.Validator.minlength 8] })]).validate
        (fun _ => JsValue.str "short")
      = [Mongoose.PathError.validator "password" Mongoose.ValidatorKind.minlength] :=
  ⟨rfl, rfl⟩

/-- A path declared `unique` refuses a second record with the same value. -/
theorem Mongoose.unique_path_rejects_duplicate :
    (Mongoose.Schema.new
      [("email", { type := Mongoose.SchemaTypeName.string, unique := true })]).save
        [fun _ => some "a@b.c"] (fun _ => JsValue.str "a@b.c")
      = Except.error (Mongoose.SaveError.duplicateKey "email") := by
  rfl

/-- A handler that sends a response and does not call `next` ends the
dispatch: the handlers after it do not run. -/
theorem Express.dispatch_stops_without_next (req : Express.Request) (res : Express.Response)
    (rest : List Express.Handler) :
    (Express.dispatch
      ((fun r s => { req := r, res := { s with headersSent := true, statusCode := 400 },
                     nextCalls := [] }) :: rest) req res).passedOn = false := by
  rfl

/-- With a `lazy` that calls its loader at once, evaluating `App.js` requests
the component's module during evaluation. -/
theorem evalAppWith_eager_requests :
    ∃ s, evalAppWith (fun ctor requested =>
        ({ payload := { status := React.LazyStatus.pending, result := ctor } }, ctor requested))
        = Except.ok s ∧
      s.requested = ["react", "./components/DisasterMap"] :=
  ⟨_, rfl, rfl⟩

/-- The numbers `1e21`, `1.5` and `-0.000001` have the texts JavaScript gives
them. -/
theorem JsNumber.toString_samples :
    (JsNumber.finite false 1 22).toString = "1e+21" ∧
    (JsNumber.finite false 15 1).toString = "1.5" ∧
    (JsNumber.finite true 1 (-5)).toString = "-0.000001" ∧
    (JsNumber.finite false 12345 (-6)).toString = "1.2345e-7" :=
  ⟨rfl, rfl, rfl, rfl⟩

/-! ## C5: the rules as middleware -/

section Middleware

open ExpressValidator

theorem rule_middleware (f : String) (req : Express.Request) (res : Express.Response) :
    (((body f).trim.notEmpty).middleware req res).nextCalls.length = 1 ∧
    (((body f).trim.notEmpty).middleware req res).res = res := by
  cases h : stringify (wrap (req.body f)) with
  | error e => simp [ValidationChain.middleware, rule_run_error f req.body e h]
  | ok ss => simp [ValidationChain.middleware, rule_run_ok f req.body ss h]

end Middleware

/-- C5 (amended): for every request and response, each rule of
`validateDisasterInput` calls `next` exactly once and leaves the response as it
was, and so does the dispatch of the whole list.  When `title` and `location`
both convert to strings, the dispatch makes one plain `next()` call per rule
and passes control on past the list, whatever errors were recorded.  When the
title's conversion throws, the first rule calls `next(err)`, the second rule
does not run, the request is left as it was and control does not pass on past
the list; when only the location's conversion throws, the second rule calls
`next(err)`. -/
theorem validateDisasterInput_next_calls (req : Express.Request) (res : Express.Response) :
    (∀ c ∈ validateDisasterInput,
      (c.middleware req res).nextCalls.length = 1 ∧ (c.middleware req res).res = res) ∧
    (Express.dispatch (validateDisasterInput.map ExpressValidator.ValidationChain.middleware)
      req res).res = res ∧
    (ExpressValidator.coerces (req.body "title") →
      ExpressValidator.coerces (req.body "location") →
      (Express.dispatch (validateDisasterInput.map ExpressValidator.ValidationChain.middleware)
        req res).nextCalls = [none, none] ∧
      (Express.dispatch (validateDisasterInput.map ExpressValidator.ValidationChain.middleware)
        req res).nextCalls.length = validateDisasterInput.length ∧
      (Express.dispatch (validateDisasterInput.map ExpressValidator.ValidationChain.middleware)
        req res).passedOn = true) ∧
    (¬ ExpressValidator.coerces (req.body "title") →
      ∃ e, (Express.dispatch
          (validateDisasterInput.map ExpressValidator.ValidationChain.middleware)
          req res).nextCalls = [some e] ∧
        (Express.dispatch (validateDisasterInput.map ExpressValidator.ValidationChain.middleware)
          req res).passedOn = false ∧
        (Express.dispatch (validateDisasterInput.map ExpressValidator.ValidationChain.middleware)
          req res).req = req) ∧
    (ExpressValidator.coerces (req.body "title") →
      ¬ ExpressValidator.coerces (req.body "location") →
      ∃ e, (Express.dispatch
          (validateDisasterInput.map ExpressValidator.ValidationChain.middleware)
          req res).nextCalls = [none, some e] ∧
        (Express.dispatch (validateDisasterInput.map ExpressValidator.ValidationChain.middleware)
          req res).passedOn = false) := by
  refine ⟨?_, ?_, ?_, ?_, ?_⟩
  · intro c hc
    simp only [validateDisasterInput, List.mem_cons, List.mem_singleton, List.not_mem_nil,
      or_false] at hc
    rcases hc with rfl | rfl
    · exact rule_middleware "title" req res
    · exact rule_middleware "location" req res
  · cases ht : ExpressValidator.stringify (ExpressValidator.wrap (req.body "title")) with
    | error e => rw [dispatch_title_error req res e ht]
    | ok ss =>
      cases hl : ExpressValidator.stringify (ExpressValidator.wrap (req.body "location")) with
      | error e => rw [dispatch_location_error req res ss e ht hl]
      | ok ts => rw [dispatch_ok req res ss ts ht hl]
  · intro h1 h2
    obtain ⟨ss, hss⟩ := (ExpressValidator.coerces_iff _).1 h1
    obtain ⟨ts, hts⟩ := (ExpressValidator.coerces_iff _).1 h2
    rw [dispatch_ok req res ss ts hss hts]
    exact ⟨rfl, rfl, rfl⟩
  · intro hn
    obtain ⟨e, he⟩ := (ExpressValidator.not_coerces_iff _).1 hn
    rw [dispatch_title_error req res e he]
    exact ⟨e, rfl, rfl, rfl⟩
  · intro h1 hn
    obtain ⟨ss, hss⟩ := (ExpressValidator.coerces_iff _).1 h1
    obtain ⟨e, he⟩ := (ExpressValidator.not_coerces_iff _).1 hn
    rw [dispatch_location_error req res ss e hss he]
    exact ⟨e, rfl, rfl⟩

/-- C5, at `{ title: "  Flood ", location: "   " }`: both fields convert, an
error is recorded for the location, and control still passes on. -/
theorem validateDisasterInput_next_calls_witness :
    (runRules floodBody).nextCalls = [none, none] ∧ (runRules floodBody).passedOn = true :=
  ⟨((validateDisasterInput_next_calls (Express.incoming floodBody) Express.untouched).2.2.1
      (coerces_of_stringify _ ["  Flood "] rfl) (coerces_of_stringify _ ["   "] rfl)).1,
    rfl⟩

/-- C5 fails as stated: at `{ title: { toString: null }, location: "" }` the
first rule hands a `TypeError` to `next`, the second rule makes no call, and
control does not pass on past the list. -/
theorem validateDisasterInput_rejecting_counterexample :
    (runRules brokenTitleBody).nextCalls
      = [some (Module.Thrown.typeError "Cannot convert object to primitive value")] ∧
    (runRules brokenTitleBody).passedOn = false ∧
    (runRules brokenTitleBody).nextCalls.length ≠ validateDisasterInput.length :=
  ⟨rfl, rfl, by decide⟩

/-! ## C6: the lazy route component -/

theorem renders_succ (n : Nat) (ctor : React.Loader) (requested : List String) :
    React.renders (n + 1) { status := React.LazyStatus.uninitialized, result := ctor } requested
      = ({ status := React.LazyStatus.pending, result := ctor }, ctor requested) := by
  induction n with
  | zero => rfl
  | succ k ih =>
    show React.lazyInitializer (React.renders (k + 1) _ requested).1
      (React.renders (k + 1) _ requested).2 = _
    rw [ih]
    rfl

/-- C6: evaluating `App.js` succeeds and requests `react` only; its default
export is the lazy component built from the loader
`() => import('./components/DisasterMap')`, still uninitialized.  Whatever
function `react` exports as `lazy`, the evaluation requests exactly what that
function requests when it is handed the loader, and React's `lazy` requests
nothing.  After no render the component's module has not been requested; after
one or more renders it has been requested exactly once. -/
theorem App_default_export_is_lazy :
    (∃ s, evalApp = Except.ok s ∧
      Module.property s.exports "default" = Module.Value.component DisasterMap ∧
      DisasterMap.payload.status = React.LazyStatus.uninitialized ∧
      s.requested = ["react"] ∧
      "./components/DisasterMap" ∉ s.requested ∧
      ∀ n, (React.renders n DisasterMap.payload s.requested).2
        = if n = 0 then ["react"] else ["react", "./components/DisasterMap"]) ∧
    (∀ lazyImpl : React.LoaderFunction, ∃ s, evalAppWith lazyImpl = Except.ok s ∧
      s.requested = (lazyImpl disasterMapLoader ["react"]).2 ∧
      Module.property s.exports "default"
        = Module.Value.component (lazyImpl disasterMapLoader ["react"]).1) ∧
    (∀ (ctor : React.Loader) (requested : List String),
      (React.lazy ctor requested).2 = requested) := by
  refine ⟨⟨_, rfl, rfl, rfl, rfl, by decide, ?_⟩, fun lazyImpl => ⟨_, rfl, rfl, rfl⟩,
    fun _ _ => rfl⟩
  intro n
  cases n with
  | zero => rfl
  | succ k =>
    have := renders_succ k disasterMapLoader ["react"]
    show (React.renders (k + 1)
      { status := React.LazyStatus.uninitialized, result := disasterMapLoader } ["react"]).2 = _
    rw [this]
    rfl

/-! ## C8: what `validation.js` exports -/

/-- C8: evaluating `middleware/validation.js` succeeds and binds
`validateDisasterInput` to the rule list in the module's own scope, while the
exports object stays empty: every property a consumer reads from it, in
particular `validateDisasterInput`, is `undefined`. -/
theorem validation_module_exports_nothing :
    ∃ s, evalValidation = Except.ok s ∧
      s.scope.lookup "validateDisasterInput" = some (Module.Value.rules validateDisasterInput) ∧
      s.exports = [] ∧
      (∀ name, Module.property s.exports name = Module.Value.undefined) ∧
      Module.property s.exports "validateDisasterInput" = Module.Value.undefined :=
  ⟨_, rfl, rfl, rfl, fun _ => rfl, rfl⟩

/-! ## C3: the user schema -/

theorem pathError_plain (path : String) (doc : Mongoose.Document) :
    Mongoose.pathError path (Mongoose.SchemaTypeOptions.ofType Mongoose.SchemaTypeName.string) doc
      = match Mongoose.castString (doc path) with
        | Mongoose.CastResult.castError => some (Mongoose.PathError.cast path)
        | Mongoose.CastResult.value _ => none := by
  unfold Mongoose.pathError Mongoose.SchemaTypeOptions.cast Mongoose.SchemaTypeOptions.ofType
  cases hd : doc path with
  | undefined => rfl
  | null => rfl
  | bool t => cases t <;> rfl
  | num x => rfl
  | str s => rfl
  | arr items => rfl
  | obj props =>
    simp only [Mongoose.castString]
    cases hl : props.lookup "_id" with
    | none => rfl
    | some v =>
      cases v with
      | str s =>
        by_cases hs : (s.length != 0) = true
        · simp [hs, Mongoose.SchemaTypeOptions.doValidate]
        · simp [hs]
      | undefined => rfl
      | null => rfl
      | bool t => rfl
      | num x => rfl
      | arr items => rfl
      | obj props => rfl

theorem userSchema_validate_eq_nil_iff (doc : Mongoose.Document) :
    userSchema.validate doc = [] ↔
      ∀ f ∈ ["name", "email", "password"], ∃ v, Mongoose.castString (doc f)
        = Mongoose.CastResult.value v := by
  simp only [userSchema, Mongoose.Schema.validate, Mongoose.Schema.new, List.filterMap_cons,
    List.filterMap_nil, pathError_plain, List.mem_cons, List.mem_singleton, List.not_mem_nil,
    or_false, forall_eq_or_imp, forall_eq]
  cases Mongoose.castString (doc "name") <;> cases Mongoose.castString (doc "email") <;>
    cases Mongoose.castString (doc "password") <;> simp

theorem castString_primitive (v : JsValue)
    (h : v = JsValue.undefined ∨ v = JsValue.null ∨ (∃ s, v = JsValue.str s) ∨
      (∃ x, v = JsValue.num x) ∨ (∃ t, v = JsValue.bool t)) :
    ∃ r, Mongoose.castString v = Mongoose.CastResult.value r := by
  rcases h with rfl | rfl | ⟨s, rfl⟩ | ⟨x, rfl⟩ | ⟨t, rfl⟩
  · exact ⟨_, rfl⟩
  · exact ⟨_, rfl⟩
  · exact ⟨_, rfl⟩
  · exact ⟨_, rfl⟩
  · cases t <;> exact ⟨_, rfl⟩

theorem castString_fails (v : JsValue)
    (h : (∃ items, v = JsValue.arr items) ∨
      (∃ props, v = JsValue.obj props ∧ props.lookup "_id" = none)) :
    Mongoose.castString v = Mongoose.CastResult.castError := by
  rcases h with ⟨items, rfl⟩ | ⟨props, rfl, hid⟩
  · rfl
  · simp [Mongoose.castString, hid]

/-- C3 (amended): in every module scope that binds `Schema` to the constructor
Mongoose exports and `String` to the built-in, evaluating `User.js` binds
`userSchema` to a schema that declares exactly the paths `name`, `email` and
`password`, each of type String with every other option at its default (not
required, not unique, no index, no further validator, no default value) and
without timestamps.  Validation of that schema accepts a record exactly when
each of the three fields can be cast to a string: a record whose fields are
each absent, `null`, a string (also the empty one), a number or a boolean is
accepted; a record that holds an array, or an object without an `_id`, in one
of them is rejected.  An accepted record is saved into every collection, also
one that already holds a record with the same email. -/
theorem userSchema_accepts_castable_records (s : Module.State)
    (hSchema : s.lookup "Schema" = Except.ok (Module.Value.host "mongoose.Schema"))
    (hString : s.lookup "String" = Except.ok (Module.Value.host "String")) :
    evalUserFrom s = Except.ok (s.declare "userSchema" (Module.Value.schema userSchema)) ∧
    userSchema.definition.map Prod.fst = ["name", "email", "password"] ∧
    (∀ p ∈ userSchema.definition,
      p.2.type = Mongoose.SchemaTypeName.string ∧ p.2.required = false ∧
      p.2.unique = false ∧ p.2.index = false ∧ p.2.validators.length = 0 ∧
      p.2.default = none) ∧
    userSchema.options.timestamps = false ∧
    (∀ doc : Mongoose.Document,
      userSchema.validate doc = [] ↔
        ∀ f ∈ ["name", "email", "password"],
          ∃ v, Mongoose.castString (doc f) = Mongoose.CastResult.value v) ∧
    (∀ doc : Mongoose.Document,
      (∀ f ∈ ["name", "email", "password"],
        doc f = JsValue.undefined ∨ doc f = JsValue.null ∨ (∃ t, doc f = JsValue.str t) ∨
        (∃ x, doc f = JsValue.num x) ∨ (∃ t, doc f = JsValue.bool t)) →
      userSchema.validate doc = []) ∧
    (∀ doc : Mongoose.Document,
      (∃ f ∈ ["name", "email", "password"],
        (∃ items, doc f = JsValue.arr items) ∨
        (∃ props, doc f = JsValue.obj props ∧ props.lookup "_id" = none)) →
      userSchema.validate doc ≠ []) ∧
    (∀ (collection : List Mongoose.StoredDocument) (doc : Mongoose.Document),
      userSchema.validate doc = [] →
      userSchema.save collection doc = Except.ok (collection ++ [userSchema.store doc])) := by
  refine ⟨?_, rfl, ?_, rfl, userSchema_validate_eq_nil_iff, ?_, ?_, ?_⟩
  · simp [evalUserFrom, hSchema, hString, Module.schemaType, Module.construct, userSchema,
      bind, Except.bind, pure, Except.pure]
  · intro p hp
    simp only [userSchema, Mongoose.Schema.new, List.mem_cons, List.mem_singleton,
      List.not_mem_nil, or_false] at hp
    rcases hp with rfl | rfl | rfl <;> exact ⟨rfl, rfl, rfl, rfl, rfl, rfl⟩
  · intro doc h
    rw [userSchema_validate_eq_nil_iff]
    intro f hf
    exact castString_primitive _ (h f hf)
  · rintro doc ⟨f, hf, hbad⟩ hv
    obtain ⟨v, hv'⟩ := (userSchema_validate_eq_nil_iff doc).1 hv f hf
    rw [castString_fails _ hbad] at hv'
    cases hv'
  · intro collection doc hv
    unfold Mongoose.Schema.save
    rw [hv]
    simp [userSchema, Mongoose.Schema.new, Mongoose.SchemaTypeOptions.ofType]

/-- C3, in the scope left by `const { Schema } = require('mongoose')`: the
record `{ email: "a@b.c", password: "" }`, which omits the name and holds an
empty password, is accepted. -/
theorem userSchema_accepts_castable_records_witness :
    userSchema.validate sparseRecord = [] :=
  (userSchema_accepts_castable_records scopeWithSchema rfl rfl).2.2.2.2.2.1 sparseRecord
    (by
      intro f hf
      simp only [List.mem_cons, List.mem_singleton, List.not_mem_nil, or_false] at hf
      rcases hf with rfl | rfl | rfl
      · exact Or.inl rfl
      · exact Or.inr (Or.inr (Or.inl ⟨"a@b.c", rfl⟩))
      · exact Or.inr (Or.inr (Or.inl ⟨"", rfl⟩)))

/-- C3 fails as stated: with `Schema` bound to Mongoose's constructor the file
builds the schema, and validation then rejects the records
`{ name: { a: 1 }, email: "a@b.c", password: "x" }` and `{ name: ["a", "b"] }`
with a cast error on `name`; the first is refused by a save as well. -/
theorem userSchema_cast_counterexample :
    evalUserFrom scopeWithSchema
      = Except.ok (scopeWithSchema.declare "userSchema" (Module.Value.schema userSchema)) ∧
    userSchema.validate objectNameRecord = [Mongoose.PathError.cast "name"] ∧
    userSchema.validate arrayNameRecord = [Mongoose.PathError.cast "name"] ∧
    userSchema.save [] objectNameRecord
      = Except.error (Mongoose.SaveError.validation [Mongoose.PathError.cast "name"]) :=
  ⟨rfl, rfl, rfl, rfl⟩

/-! ## C4: importing the three files -/

/-- C4 at `models/User.js`: evaluating the file throws a `ReferenceError`,
because `Schema` is bound neither in a CommonJS nor in an ES module scope;
`App.js` and `middleware/validation.js` evaluate without throwing, and so does
`User.js` once `Schema` is bound to Mongoose's constructor, where it binds
`userSchema` to the schema above. -/
theorem User_module_throws_reference_error :
    evalUser = Except.error (Module.Thrown.referenceError "Schema") ∧
    evalUserFrom Module.esModule = Except.error (Module.Thrown.referenceError "Schema") ∧
    (∃ s, evalApp = Except.ok s) ∧
    (∃ s, evalValidation = Except.ok s) ∧
    evalUserFrom (Module.commonJs.declare "Schema" (Module.Value.host "mongoose.Schema"))
      = Except.ok ((Module.commonJs.declare "Schema"
          (Module.Value.host "mongoose.Schema")).declare "userSchema"
          (Module.Value.schema userSchema)) :=
  ⟨rfl, rfl, ⟨_, rfl⟩, ⟨_, rfl⟩, rfl⟩
